import Mathlib

/-!
# fctech-rate-limiter: the rate-decision engine

A shallow embedding of `internal/limiter/limiter.go` (policy resolution, the
`Allow` decision procedure, the `TOKEN_LIMITS` parser and `NewLimiter`), of the
`Storage` interface of `internal/storage/storage.go`, of the in-memory
`mockStorage` of `internal/limiter/limiter_test.go`, of the reply handling of
`internal/storage/redis.go` and of `pkg/middleware/limiter_middleware.go`.

Modelling conventions.
* `time.Duration` and `time.Time` are integers counting nanoseconds.  The clock
  read by `time.Now()` is an explicit argument `now` of the in-memory store.
* Go `int` is the 64-bit `int`.  Arithmetic on machine integers (values read
  from configuration text, the request counter of the in-memory store) wraps
  into the `int64` range (`wrap64`).
* A Go `error` is `Option GoError`, `none` being `nil`.
* The store behind the `Storage` interface is a state `σ` threaded through the
  calls; every method returns its Go results together with the next state.
* The Redis client is outside the repository: a `RedisStorage` method is the
  command it sends and a function of the reply it gets.
* An `http.ResponseWriter` is the record an `httptest.ResponseRecorder` keeps; the
  next handler is a function of the writer and the request.
-/

namespace RateLimiter

/-! ## Data model -/

/-- A `time.Duration`: a number of nanoseconds. -/
abbrev Duration := Int

/-- A `time.Time`: an instant, in nanoseconds on the clock of the process. -/
abbrev Time := Int

/-- A non-nil Go `error` value. -/
abbrev GoError := String

/-- The constant `time.Second`. -/
def Second : Duration := 1000000000

/-- Largest `int` (64-bit). -/
def maxInt64 : Int := 9223372036854775807

/-- Smallest `int` (64-bit). -/
def minInt64 : Int := -9223372036854775808

/-- The value of an integer expression as a 64-bit signed machine integer. -/
def wrap64 (x : Int) : Int :=
  (x + 9223372036854775808) % 18446744073709551616 - 9223372036854775808

/-- Type `TokenConfig` of limiter.go. -/
structure TokenConfig where
  Limit : Int
  Window : Duration
  Block : Duration
deriving DecidableEq, Repr

/-- Interface `Storage` of storage.go, over a store state `σ`.
`Increment` returns `(count, err)`, `SetBlocked` returns `err`,
`IsBlocked` returns `(blocked, remaining, err)`. -/
structure Storage (σ : Type) where
  Increment : String → Duration → σ → (Int × Option GoError) × σ
  SetBlocked : String → Duration → σ → Option GoError × σ
  IsBlocked : String → σ → (Bool × Duration × Option GoError) × σ

/-- Type `Limiter` of limiter.go; the `store` field is passed separately. -/
structure Limiter where
  mode : String
  defaultLimit : Int
  defaultWindow : Duration
  defaultBlock : Duration
  tokenConfigs : String → Option TokenConfig

/-- Type `AllowResult` of limiter.go; the field defaults are the Go zero values. -/
structure AllowResult where
  Allowed : Bool := false
  Count : Int := 0
  Limit : Int := 0
  Blocked : Bool := false
  BlockRemain : Duration := 0
deriving DecidableEq, Repr

/-! ## `Limiter.Allow` -/

/-- Lines 112-143 of `Limiter.Allow`: the key, limit, window and block duration
the request is evaluated against. -/
def resolve (l : Limiter) (ip apiKey : String) : String × Int × Duration × Duration :=
  let useToken : Option TokenConfig :=
    if apiKey ≠ "" then l.tokenConfigs apiKey else none
  match useToken with
  | some cfg => ("token:" ++ apiKey, cfg.Limit, cfg.Window, cfg.Block)
  | none =>
    if l.mode = "token" then ("ip:" ++ ip, 0, l.defaultWindow, l.defaultBlock)
    else ("ip:" ++ ip, l.defaultLimit, l.defaultWindow, l.defaultBlock)

/-- Lines 145-172 of `Limiter.Allow`: the store orchestration for a resolved
`(key, limit, window, block)`. -/
def evaluate {σ : Type} (S : Storage σ) (key : String) (limit : Int)
    (window block : Duration) (s : σ) : (AllowResult × Option GoError) × σ :=
  match S.IsBlocked key s with
  | ((blocked, rem, err), s1) =>
    match err with
    | some e => (({}, some e), s1)
    | none =>
      if blocked then
        (({ Allowed := false, Blocked := true, BlockRemain := rem }, none), s1)
      else if limit ≤ 0 then
        let s2 := (S.SetBlocked key block s1).2
        (({ Allowed := false, Limit := limit, Count := 0, Blocked := true,
            BlockRemain := block }, none), s2)
      else
        match S.Increment key window s1 with
        | ((cnt, err2), s2) =>
          match err2 with
          | some e => (({}, some e), s2)
          | none =>
            if cnt > limit then
              let s3 := (S.SetBlocked key block s2).2
              (({ Allowed := false, Count := cnt, Limit := limit, Blocked := true,
                  BlockRemain := block }, none), s3)
            else
              (({ Allowed := true, Count := cnt, Limit := limit, Blocked := false }, none), s2)

/-- Method `Limiter.Allow` of limiter.go. -/
def Allow {σ : Type} (S : Storage σ) (l : Limiter) (ip apiKey : String) (s : σ) :
    (AllowResult × Option GoError) × σ :=
  match resolve l ip apiKey with
  | (key, limit, window, block) => evaluate S key limit window block s

/-! ## Observing the store calls -/

/-- One call on the `Storage` interface, with its arguments. -/
inductive Call where
  | IsBlocked (key : String)
  | Increment (key : String) (window : Duration)
  | SetBlocked (key : String) (duration : Duration)
deriving DecidableEq, Repr

/-- The key a store call is made on. -/
def Call.key : Call → String
  | Call.IsBlocked k => k
  | Call.Increment k _ => k
  | Call.SetBlocked k _ => k

/-- A store that behaves as `S` and appends every call it receives to a log. -/
def traced {σ : Type} (S : Storage σ) : Storage (σ × List Call) where
  Increment := fun key window st =>
    ((S.Increment key window st.1).1,
      ((S.Increment key window st.1).2, st.2 ++ [Call.Increment key window]))
  SetBlocked := fun key duration st =>
    ((S.SetBlocked key duration st.1).1,
      ((S.SetBlocked key duration st.1).2, st.2 ++ [Call.SetBlocked key duration]))
  IsBlocked := fun key st =>
    ((S.IsBlocked key st.1).1, ((S.IsBlocked key st.1).2, st.2 ++ [Call.IsBlocked key]))

/-- The calls `Allow` makes on the store `S` from the state `s`, in order. -/
def callsOf {σ : Type} (S : Storage σ) (l : Limiter) (ip apiKey : String) (s : σ) :
    List Call :=
  (Allow (traced S) l ip apiKey (s, [])).2.2

/-! ## The in-memory store of the tests -/

/-- The anonymous struct `{count int64; exp time.Time}` of `mockStorage.counters`. -/
structure Counter where
  count : Int
  exp : Time
deriving DecidableEq, Repr

/-- Type `mockStorage` of limiter_test.go: the two maps (the mutex is dropped). -/
structure mockStorage where
  counters : String → Option Counter
  blocked : String → Option Time

/-- Function `newMockStorage`. -/
def newMockStorage : mockStorage :=
  { counters := fun _ => none, blocked := fun _ => none }

/-- Largest `time.Duration`. -/
def maxDuration : Duration := 9223372036854775807

/-- Smallest `time.Duration`. -/
def minDuration : Duration := -9223372036854775808

/-- Method `Time.Sub`: the difference of two instants, saturated to the range of
a `time.Duration`. -/
def timeSub (t u : Time) : Duration :=
  if t - u > maxDuration then maxDuration
  else if t - u < minDuration then minDuration
  else t - u

/-- Go map assignment `m[key] = v`. -/
def mapSet {α : Type} (m : String → Option α) (key : String) (v : α) : String → Option α :=
  fun k => if k = key then some v else m k

/-- Go builtin `delete(m, key)`. -/
def mapDelete {α : Type} (m : String → Option α) (key : String) : String → Option α :=
  fun k => if k = key then none else m k

/-- Method `mockStorage.Increment`, with `now` the value of `time.Now()`; the
`int64` increment `c.count++` wraps. -/
def mockStorage.Increment (now : Time) (key : String) (window : Duration)
    (m : mockStorage) : (Int × Option GoError) × mockStorage :=
  match m.counters key with
  | none =>
    ((1, none), { m with counters := mapSet m.counters key ⟨1, now + window⟩ })
  | some c =>
    if now > c.exp then
      ((1, none), { m with counters := mapSet m.counters key ⟨1, now + window⟩ })
    else
      ((wrap64 (c.count + 1), none),
        { m with counters := mapSet m.counters key ⟨wrap64 (c.count + 1), c.exp⟩ })

/-- Method `mockStorage.SetBlocked`, with `now` the value of `time.Now()`. -/
def mockStorage.SetBlocked (now : Time) (key : String) (duration : Duration)
    (m : mockStorage) : Option GoError × mockStorage :=
  (none, { m with blocked := mapSet m.blocked key (now + duration) })

/-- Method `mockStorage.IsBlocked`, with `now` the value of `time.Now()`. -/
def mockStorage.IsBlocked (now : Time) (key : String) (m : mockStorage) :
    (Bool × Duration × Option GoError) × mockStorage :=
  match m.blocked key with
  | none => ((false, 0, none), m)
  | some exp =>
    if now > exp then
      ((false, 0, none), { m with blocked := mapDelete m.blocked key })
    else
      ((true, timeSub exp now, none), m)

/-- The in-memory store as a `Storage`, all of whose clock reads return `now`. -/
def mockStore (now : Time) : Storage mockStorage where
  Increment := mockStorage.Increment now
  SetBlocked := mockStorage.SetBlocked now
  IsBlocked := mockStorage.IsBlocked now

/-- Successive calls `Allow(ip, apiKey)` on the in-memory store, the i-th made at
the i-th instant of the list; returns the results in order and the final store. -/
def allowAt (l : Limiter) (ip apiKey : String) :
    List Time → mockStorage → List (AllowResult × Option GoError) × mockStorage
  | [], m => ([], m)
  | t :: ts, m =>
    let r := Allow (mockStore t) l ip apiKey m
    let rest := allowAt l ip apiKey ts r.2
    (r.1 :: rest.1, rest.2)

/-! ## `parseTokenConfigs` -/

/-- Function `unicode.IsSpace`, the white space `strings.TrimSpace` removes: tab,
line feed, vertical tab, form feed, carriage return, space, U+0085, U+00A0,
U+1680, U+2000..U+200A, U+2028, U+2029, U+202F, U+205F, U+3000. -/
def isSpace (c : Char) : Bool :=
  (9 ≤ c.toNat && c.toNat ≤ 13) || c.toNat = 32 || c.toNat = 133 || c.toNat = 160
    || c.toNat = 5760 || (8192 ≤ c.toNat && c.toNat ≤ 8202) || c.toNat = 8232
    || c.toNat = 8233 || c.toNat = 8239 || c.toNat = 8287 || c.toNat = 12288

/-- Function `strings.TrimSpace` on the characters of a string. -/
def trimChars (cs : List Char) : List Char :=
  ((cs.dropWhile isSpace).reverse.dropWhile isSpace).reverse

/-- Function `strings.TrimSpace`. -/
def TrimSpace (s : String) : String :=
  String.mk (trimChars s.data)

/-- Function `strings.Split` on the characters of a string, for a separator of
one character: the pieces between the separators, one more than there are
separators. -/
def splitChars (sep : Char) : List Char → List (List Char)
  | [] => [[]]
  | c :: cs =>
    if c = sep then [] :: splitChars sep cs
    else
      match splitChars sep cs with
      | [] => [[c]]
      | h :: t => (c :: h) :: t

/-- Function `strings.Split(s, sep)` for a separator of one character. -/
def Split (s : String) (sep : Char) : List String :=
  (splitChars sep s.data).map String.mk

/-- Function `strconv.Atoi` (64-bit `int`): an optional sign followed by one or
more decimal digits whose value fits the `int` range; `none` is a non-nil error. -/
def Atoi (s : String) : Option Int :=
  let signed : Bool × List Char :=
    match s.data with
    | c :: r => if c = '-' then (true, r) else if c = '+' then (false, r) else (false, c :: r)
    | [] => (false, [])
  if signed.2 = [] || !(signed.2.all Char.isDigit) then none
  else
    let n : Nat := signed.2.foldl (fun a c => 10 * a + (c.toNat - 48)) 0
    let v : Int := if signed.1 then -(n : Int) else (n : Int)
    if minInt64 ≤ v ∧ v ≤ maxInt64 then some v else none

/-- One iteration of the loop of `parseTokenConfigs` on the part `p`: the token
and rule it stores in the map, or `none` when the iteration is skipped by
`continue`. -/
def parseEntry (p : String) : Option (String × TokenConfig) :=
  let p := TrimSpace p
  if p = "" then none
  else
    let seg := Split p ':'
    if seg.length < 2 then none
    else
      let token := seg.getD 0 ""
      let limit : Int := match Atoi (seg.getD 1 "") with
        | some v => v
        | none => 0
      let window : Int :=
        if seg.length ≥ 3 then
          match Atoi (seg.getD 2 "") with
          | some v => v
          | none => 1
        else 1
      let block : Int :=
        if seg.length ≥ 4 then
          match Atoi (seg.getD 3 "") with
          | some v => v
          | none => 300
        else 300
      some (token, { Limit := limit, Window := wrap64 (window * Second),
                     Block := wrap64 (block * Second) })

/-- Function `parseTokenConfigs` of limiter.go. -/
def parseTokenConfigs (raw : String) : String → Option TokenConfig :=
  if TrimSpace raw = "" then fun _ => none
  else
    (Split raw ',').foldl
      (fun out p =>
        match parseEntry p with
        | none => out
        | some (token, cfg) => mapSet out token cfg)
      (fun _ => none)

/-! ## Fixtures used to exercise the theorems -/

/-- A stateless store answering every call with fixed results. -/
def constStore (ib : Bool × Duration × Option GoError) (inc : Int × Option GoError)
    (sb : Option GoError) : Storage Unit where
  Increment := fun _ _ s => (inc, s)
  SetBlocked := fun _ _ s => (sb, s)
  IsBlocked := fun _ s => (ib, s)

/-- The store `S` with its `SetBlocked` method replaced by `sb`. -/
def withSetBlocked {σ : Type} (S : Storage σ)
    (sb : String → Duration → σ → Option GoError × σ) : Storage σ where
  Increment := S.Increment
  SetBlocked := sb
  IsBlocked := S.IsBlocked

/-- Configuration of `TestAllowByIP_ExceedAndBlock`: mode ip, limit 2, window 10s,
block 5s, no token rule. -/
def ipLimiter : Limiter :=
  { mode := "ip", defaultLimit := 2, defaultWindow := 10 * Second,
    defaultBlock := 5 * Second, tokenConfigs := fun _ => none }

/-- Configuration of `TestTokenMode_WithoutToken_Denied`: mode token, limit 10,
window 1s, block 5s, no token rule. -/
def tokenOnlyLimiter : Limiter :=
  { mode := "token", defaultLimit := 10, defaultWindow := 1 * Second,
    defaultBlock := 5 * Second, tokenConfigs := fun _ => none }

/-- Configuration of `TestAllowByToken_OverridesIP`: mode both, default limit 1,
token rule `tok1:3:10:5`. -/
def bothLimiter : Limiter :=
  { mode := "both", defaultLimit := 1, defaultWindow := 10 * Second,
    defaultBlock := 5 * Second,
    tokenConfigs := fun k =>
      if k = "tok1" then some ⟨3, 10 * Second, 5 * Second⟩ else none }

/-- A configuration with the largest `int` as limit: mode ip, window 10s, block
5s, no token rule. -/
def maxLimitLimiter : Limiter :=
  { mode := "ip", defaultLimit := 9223372036854775807, defaultWindow := 10 * Second,
    defaultBlock := 5 * Second, tokenConfigs := fun _ => none }

/-- An in-memory store holding a block on `ip:1.2.3.4` until instant 100 and a
counter of 3 for it. -/
def blockedStore : mockStorage :=
  { counters := mapSet (fun _ => none) "ip:1.2.3.4" ⟨3, 50⟩,
    blocked := mapSet (fun _ => none) "ip:1.2.3.4" 100 }

/-! ## `RedisStorage` -/

/-- A reply of the Redis client to the increment script, as the Go value
`Result()` returns: only its dynamic type matters to `RedisStorage.Increment`. -/
inductive RedisValue where
  | int64 (v : Int)
  | uint64 (v : Nat)
  | string (v : String)
  | other
deriving DecidableEq, Repr

/-- A command `RedisStorage` sends to the Redis client: the increment script run
on `KEYS[1] = key` with `ARGV[1] = seconds`, `SET key value` with an expiry,
`TTL key`. -/
inductive RedisCmd where
  | RunIncrScript (key : String) (seconds : Int)
  | Set (key : String) (value : String) (expiration : Duration)
  | TTL (key : String)
deriving DecidableEq, Repr

/-- The Redis key a command reads or writes. -/
def RedisCmd.key : RedisCmd → String
  | RedisCmd.RunIncrScript k _ => k
  | RedisCmd.Set k _ _ => k
  | RedisCmd.TTL k => k

/-- The command sent by `RedisStorage.Increment(key, window)`: the script gets
`int(window.Seconds())`, the whole seconds of the window, truncated toward zero
(the rounding of the `float64` in between is not modelled). -/
def RedisStorage.IncrementCmd (key : String) (window : Duration) : RedisCmd :=
  RedisCmd.RunIncrScript key (Int.tdiv window Second)

/-- Method `RedisStorage.Increment`, given the `(res, err)` the script run
returned; an `int64` conversion of a `uint64` wraps. -/
def RedisStorage.Increment (reply : RedisValue × Option GoError) : Int × Option GoError :=
  match reply.2 with
  | some e => (0, some e)
  | none =>
    match reply.1 with
    | RedisValue.int64 v => (v, none)
    | RedisValue.uint64 v => (wrap64 (v : Int), none)
    | RedisValue.string _ => (0, none)
    | RedisValue.other => (0, none)

/-- The command sent by `RedisStorage.SetBlocked(key, duration)`. -/
def RedisStorage.SetBlockedCmd (key : String) (duration : Duration) : RedisCmd :=
  RedisCmd.Set ("blocked:" ++ key) "1" duration

/-- Method `RedisStorage.SetBlocked`, given the `Err()` of the `SET` command. -/
def RedisStorage.SetBlocked (reply : Option GoError) : Option GoError :=
  reply

/-- The command sent by `RedisStorage.IsBlocked(key)`. -/
def RedisStorage.IsBlockedCmd (key : String) : RedisCmd :=
  RedisCmd.TTL ("blocked:" ++ key)

/-- Method `RedisStorage.IsBlocked`, given the `(ttl, err)` the `TTL` command
returned. -/
def RedisStorage.IsBlocked (reply : Duration × Option GoError) :
    Bool × Duration × Option GoError :=
  match reply.2 with
  | some _ => (false, 0, none)
  | none =>
    if reply.1 ≤ 0 then (false, 0, none)
    else (true, reply.1, none)

/-! ## The HTTP middleware -/

/-- The part of `http.Request` the middleware reads: `Header` is `r.Header.Get`,
the first value of a header or the empty string. -/
structure Request where
  Header : String → String
  RemoteAddr : String

/-- Function `strings.LastIndex(s, sep)` on the characters of a string, for a
separator of one character; `none` is the result -1. -/
def lastIndexChars (sep : Char) : List Char → Option Nat
  | [] => none
  | c :: cs =>
    match lastIndexChars sep cs with
    | some i => some (i + 1)
    | none => if c = sep then some 0 else none

/-- Function `strings.LastIndex(s, sep)` for a separator of one character. -/
def LastIndex (s : String) (sep : Char) : Int :=
  match lastIndexChars sep s.data with
  | some i => (i : Int)
  | none => -1

/-- Function `clientIP` of limiter_middleware.go. -/
def clientIP (r : Request) : String :=
  let xff := r.Header "X-Forwarded-For"
  if xff ≠ "" then
    let parts := Split xff ','
    TrimSpace (parts.getD 0 "")
  else
    let ra := r.RemoteAddr
    let idx := LastIndex ra ':'
    if idx ≠ -1 then String.mk (ra.data.take idx.toNat)
    else ra

/-- What is written to the body of a response: text, or the JSON encoding of a
`map[string]string`. -/
inductive BodyPart where
  | text (s : String)
  | json (obj : List (String × String))
deriving DecidableEq, Repr

/-- An `http.ResponseWriter` as `httptest.ResponseRecorder` records it: the
header map, the status code once it is written, and the body. -/
structure ResponseWriter where
  header : List (String × String)
  Code : Option Nat
  Body : List BodyPart
deriving DecidableEq, Repr

/-- Function `httptest.NewRecorder`: nothing written yet. -/
def NewRecorder : ResponseWriter :=
  { header := [], Code := none, Body := [] }

/-- Call `w.Header().Set(key, value)`. -/
def ResponseWriter.SetHeader (w : ResponseWriter) (key value : String) : ResponseWriter :=
  { w with header := (key, value) :: w.header.filter (fun kv => kv.1 ≠ key) }

/-- Call `w.Header().Del(key)`. -/
def ResponseWriter.DelHeader (w : ResponseWriter) (key : String) : ResponseWriter :=
  { w with header := w.header.filter (fun kv => kv.1 ≠ key) }

/-- Method `WriteHeader`: the first status code written is the one sent. -/
def ResponseWriter.WriteHeader (w : ResponseWriter) (code : Nat) : ResponseWriter :=
  match w.Code with
  | some _ => w
  | none => { w with Code := some code }

/-- Method `Write`: writes the status 200 first when none was written. -/
def ResponseWriter.Write (w : ResponseWriter) (part : BodyPart) : ResponseWriter :=
  { (w.WriteHeader 200) with Body := w.Body ++ [part] }

/-- Constant `http.StatusInternalServerError`. -/
def StatusInternalServerError : Nat := 500

/-- Constant `http.StatusTooManyRequests`. -/
def StatusTooManyRequests : Nat := 429

/-- Function `http.Error`: drops a `Content-Length` header set before, then a
plain-text reply with the given status code, the message followed by a line
feed. -/
def httpError (w : ResponseWriter) (error : String) (code : Nat) : ResponseWriter :=
  ((((w.DelHeader "Content-Length").SetHeader "Content-Type"
    "text/plain; charset=utf-8").SetHeader
    "X-Content-Type-Options" "nosniff").WriteHeader code).Write (BodyPart.text (error ++ "\n"))

/-- The message of the 429 reply. -/
def tooManyMessage : String :=
  "you have reached the maximum number of requests or actions allowed within a certain time frame"

/-- Method `LimiterMiddleware.Handler` applied to `next`, serving the request `r`
on the writer `w`; the next handler is a function of the writer and request. -/
def Handler {σ : Type} (S : Storage σ) (l : Limiter)
    (next : ResponseWriter → Request → ResponseWriter)
    (w : ResponseWriter) (r : Request) (s : σ) : ResponseWriter × σ :=
  let apiKey := r.Header "API_KEY"
  let ip := clientIP r
  match Allow S l ip apiKey s with
  | ((_, some _), s1) => (httpError w "internal error" StatusInternalServerError, s1)
  | ((res, none), s1) =>
    if !res.Allowed then
      let w1 := w.SetHeader "Content-Type" "application/json"
      let w2 := w1.WriteHeader StatusTooManyRequests
      let w3 := w2.Write (BodyPart.json [("message", tooManyMessage)])
      (w3, s1)
    else
      (next w r, s1)

/-- Successive calls of `mockStorage.IsBlocked` on one key, the i-th made at the
i-th instant of the list; returns the results in order and the final store. -/
def isBlockedAt (key : String) :
    List Time → mockStorage → List (Bool × Duration × Option GoError) × mockStorage
  | [], m => ([], m)
  | t :: ts, m =>
    let r := mockStorage.IsBlocked t key m
    let rest := isBlockedAt key ts r.2
    (r.1 :: rest.1, rest.2)

/-- A request from the peer `1.2.3.4:5678` with the given `X-Forwarded-For` and
`API_KEY` header values. -/
def requestOf (xff apiKey : String) : Request :=
  { Header := fun k =>
      if k = "X-Forwarded-For" then xff else if k = "API_KEY" then apiKey else "",
    RemoteAddr := "1.2.3.4:5678" }

/-- A request without headers from the peer address `remoteAddr`. -/
def peerRequest (remoteAddr : String) : Request :=
  { Header := fun _ => "", RemoteAddr := remoteAddr }

/-- The next handler of the middleware tests: status 200 and the body `ok`. -/
def okHandler (w : ResponseWriter) (_r : Request) : ResponseWriter :=
  (w.WriteHeader 200).Write (BodyPart.text "ok")

/-- The counter of `key` expires within one window of the instant `τ`, its count
is an `int64`, and once it has passed the limit a block marker outlasts it. -/
def counterCovered (key : String) (limit : Int) (window : Duration) (τ : Time)
    (m : mockStorage) : Prop :=
  ∀ c, m.counters key = some c →
    c.exp ≤ τ + window ∧ minInt64 ≤ c.count
      ∧ (limit < c.count → ∃ eb, m.blocked key = some eb ∧ c.exp ≤ eb)

/-- The three shapes of a result of `Allow` for a limit above 0: allowed within
the limit, denied by the block check, denied by the count passing the limit by
exactly one. -/
def resultWithinOne (limit : Int) (block : Duration) (r : AllowResult × Option GoError) : Prop :=
  r.2 = none ∧
    ((r.1.Allowed = true ∧ r.1.Blocked = false ∧ r.1.Count ≤ limit ∧ r.1.Limit = limit)
    ∨ (r.1.Allowed = false ∧ r.1.Blocked = true ∧ r.1.Count = 0 ∧ r.1.Limit = 0)
    ∨ (r.1.Allowed = false ∧ r.1.Blocked = true ∧ r.1.Count = limit + 1 ∧ r.1.Limit = limit
        ∧ r.1.BlockRemain = block))

/-- A configuration whose block outlasts its window: mode ip, limit 1, window 5s,
block 10s, no token rule. -/
def longBlockLimiter : Limiter :=
  { mode := "ip", defaultLimit := 1, defaultWindow := 5 * Second,
    defaultBlock := 10 * Second, tokenConfigs := fun _ => none }

/-! ## `NewLimiter` -/

/-- Function `getEnv` of limiter.go; `env` is `os.Getenv`. -/
def getEnv (env : String → String) (key fallback : String) : String :=
  if env key = "" then fallback else env key

/-- Function `getEnvAsInt` of limiter.go; `env` is `os.Getenv`. -/
def getEnvAsInt (env : String → String) (key : String) (fallback : Int) : Int :=
  if env key = "" then fallback
  else
    match Atoi (env key) with
    | some i => i
    | none => fallback

/-- Function `NewLimiter` of limiter.go; `env` is `os.Getenv` and the store is
passed separately. -/
def NewLimiter (env : String → String) : Limiter :=
  { mode := getEnv env "MODE" "both",
    defaultLimit := getEnvAsInt env "DEFAULT_LIMIT" 10,
    defaultWindow := wrap64 (getEnvAsInt env "DEFAULT_WINDOW" 1 * Second),
    defaultBlock := wrap64 (getEnvAsInt env "DEFAULT_BLOCK" 300 * Second),
    tokenConfigs := parseTokenConfigs (getEnv env "TOKEN_LIMITS" "") }

/-- An environment that sets only `TOKEN_LIMITS`. -/
def envTokenLimits (raw : String) : String → String :=
  fun k => if k = "TOKEN_LIMITS" then raw else ""

/-! # Theorems -/

/-! ## Shared lemmas -/

theorem Allow_eq_evaluate {σ : Type} (S : Storage σ) (l : Limiter) (ip apiKey : String) (s : σ)
    (key : String) (limit : Int) (window block : Duration)
    (hres : resolve l ip apiKey = (key, limit, window, block)) :
    Allow S l ip apiKey s = evaluate S key limit window block s := by
  simp [Allow, hres]

theorem callsOf_eq {σ : Type} (S : Storage σ) (l : Limiter) (ip apiKey : String) (s : σ)
    (key : String) (limit : Int) (window block : Duration)
    (hres : resolve l ip apiKey = (key, limit, window, block)) :
    callsOf S l ip apiKey s = (evaluate (traced S) key limit window block (s, [])).2.2 := by
  simp [callsOf, Allow, hres]

/-- The log of `evaluate` on a traced store is one of four call sequences. -/
theorem evaluate_calls_shape {σ : Type} (S : Storage σ) (key : String) (limit : Int)
    (window block : Duration) (s : σ) :
    (evaluate (traced S) key limit window block (s, [])).2.2 = [Call.IsBlocked key]
    ∨ (evaluate (traced S) key limit window block (s, [])).2.2
        = [Call.IsBlocked key, Call.SetBlocked key block]
    ∨ (evaluate (traced S) key limit window block (s, [])).2.2
        = [Call.IsBlocked key, Call.Increment key window]
    ∨ (evaluate (traced S) key limit window block (s, [])).2.2
        = [Call.IsBlocked key, Call.Increment key window, Call.SetBlocked key block] := by
  unfold evaluate
  simp only [traced]
  rcases hib : S.IsBlocked key s with ⟨⟨b, r, e⟩, s1⟩
  cases e with
  | some e => simp
  | none =>
    cases b with
    | true => simp
    | false =>
      by_cases hl : limit ≤ 0
      · simp [hl]
      · rcases hinc : S.Increment key window s1 with ⟨⟨c, e2⟩, s2⟩
        cases e2 with
        | some e2 => simp [hl, hinc]
        | none =>
          by_cases hc : c > limit
          · simp [hl, hinc, hc]
          · simp [hl, hinc, hc]

/-- A traced store returns what the store it wraps returns. -/
theorem evaluate_traced_result {σ : Type} (S : Storage σ) (key : String) (limit : Int)
    (window block : Duration) (s : σ) (log : List Call) :
    (evaluate (traced S) key limit window block (s, log)).1
        = (evaluate S key limit window block s).1
      ∧ (evaluate (traced S) key limit window block (s, log)).2.1
        = (evaluate S key limit window block s).2 := by
  rcases hib : S.IsBlocked key s with ⟨⟨b, r, e⟩, s1⟩
  cases e with
  | some e => simp [evaluate, traced, hib]
  | none =>
    cases b with
    | true => simp [evaluate, traced, hib]
    | false =>
      by_cases hl : limit ≤ 0
      · simp [evaluate, traced, hib, hl]
      · rcases hinc : S.Increment key window s1 with ⟨⟨c, e2⟩, s2⟩
        cases e2 with
        | some e2 => simp [evaluate, traced, hib, hl, hinc]
        | none =>
          by_cases hc : c > limit
          · simp [evaluate, traced, hib, hl, hinc, hc]
          · simp [evaluate, traced, hib, hl, hinc, hc]

/-- A token key never equals an ip key: they differ at the first character. -/
theorem token_key_ne_ip_key (a b : String) : "token:" ++ a ≠ "ip:" ++ b := by
  intro h
  have h2 := congrArg String.data h
  simp [String.data_append] at h2

/-- On the in-memory store, a check of a key blocked until `exp`, made no later
than `exp`, only reads. -/
theorem Allow_mock_blocked (l : Limiter) (ip apiKey key : String) (limit : Int)
    (window block : Duration) (hres : resolve l ip apiKey = (key, limit, window, block))
    (m : mockStorage) (exp t : Time) (hb : m.blocked key = some exp) (ht : t ≤ exp) :
    Allow (mockStore t) l ip apiKey m =
      (({ Allowed := false, Blocked := true, BlockRemain := timeSub exp t }, none), m) := by
  rw [Allow_eq_evaluate _ l ip apiKey m key limit window block hres]
  have hnot : ¬ t > exp := not_lt.mpr ht
  simp [evaluate, mockStore, mockStorage.IsBlocked, hb, hnot]

/-- A value within the `int64` range is not changed by wrapping. -/
theorem wrap64_of_range (x : Int) (hlo : -9223372036854775808 ≤ x)
    (hhi : x ≤ 9223372036854775807) : wrap64 x = x := by
  unfold wrap64
  omega

/-- A wrapped value lies in the `int64` range. -/
theorem wrap64_range (x : Int) :
    -9223372036854775808 ≤ wrap64 x ∧ wrap64 x ≤ 9223372036854775807 := by
  unfold wrap64
  omega

/-- One check of a counted key on the in-memory store: allowed while the new count
stays within the limit, denied once it passes it. -/
theorem Allow_mock_counts (l : Limiter) (ip apiKey key : String) (limit : Int)
    (window block : Duration) (hres : resolve l ip apiKey = (key, limit, window, block))
    (m : mockStorage) (k : Int) (e t : Time)
    (hb : m.blocked key = none) (hc : m.counters key = some ⟨k, e⟩) (ht : t ≤ e)
    (hlim : 0 < limit) :
    (wrap64 (k + 1) ≤ limit →
      Allow (mockStore t) l ip apiKey m =
        (({ Allowed := true, Count := wrap64 (k + 1), Limit := limit, Blocked := false }, none),
          { m with counters := mapSet m.counters key ⟨wrap64 (k + 1), e⟩ }))
    ∧ (limit < wrap64 (k + 1) →
      (Allow (mockStore t) l ip apiKey m).1 =
        ({ Allowed := false, Count := wrap64 (k + 1), Limit := limit, Blocked := true,
           BlockRemain := block }, none)) := by
  rw [Allow_eq_evaluate _ l ip apiKey m key limit window block hres]
  have hnot : ¬ t > e := not_lt.mpr ht
  have hl : ¬ limit ≤ 0 := not_le.mpr hlim
  constructor
  · intro hk
    have hk2 : ¬ wrap64 (k + 1) > limit := not_lt.mpr hk
    simp [evaluate, mockStore, mockStorage.IsBlocked, mockStorage.Increment, hb, hc, hnot, hl, hk2]
  · intro hk
    simp [evaluate, mockStore, mockStorage.IsBlocked, mockStorage.Increment, hb, hc, hnot, hl, hk]

/-- From a counter at `k ≥ 0` with `d` requests left before a limit that is an
`int`, `d + 1` checks made before the counter expires give `d` allowed results
and then the result of the count `limit + 1` as an `int64`: a deny when it is
above the limit, an allow when it wrapped. -/
theorem allowAt_counting (l : Limiter) (ip apiKey key : String) (limit : Int)
    (window block : Duration) (hres : resolve l ip apiKey = (key, limit, window, block))
    (hlim : 0 < limit) (hmax : limit ≤ 9223372036854775807) (e : Time) :
    ∀ (d : Nat) (k : Int) (m : mockStorage) (ts : List Time),
      m.blocked key = none → m.counters key = some ⟨k, e⟩ → 0 ≤ k → k + d = limit →
      (∀ t ∈ ts, t ≤ e) → ts.length = d + 1 →
      (allowAt l ip apiKey ts m).1
        = (List.range d).map (fun (i : Nat) =>
            (({ Allowed := true, Count := k + 1 + (i : Int), Limit := limit, Blocked := false }
              : AllowResult), (none : Option GoError)))
          ++ [if limit < wrap64 (limit + 1) then
                ({ Allowed := false, Count := wrap64 (limit + 1), Limit := limit,
                   Blocked := true, BlockRemain := block }, none)
              else
                ({ Allowed := true, Count := wrap64 (limit + 1), Limit := limit,
                   Blocked := false }, none)] := by
  intro d
  induction d with
  | zero =>
    intro k m ts hb hc _ hk hts hlen
    match ts, hlen with
    | [t], _ =>
      have ht : t ≤ e := hts t (List.mem_singleton.mpr rfl)
      have hk2 : k = limit := by simpa using hk
      subst hk2
      have h := Allow_mock_counts l ip apiKey key k window block hres m k e t hb hc ht hlim
      by_cases hover : k < wrap64 (k + 1)
      · simp [allowAt, h.2 hover, hover]
      · simp [allowAt, h.1 (not_lt.mp hover), hover]
  | succ d ih =>
    intro k m ts hb hc hk0 hk hts hlen
    match ts, hlen with
    | t :: ts2, hlen2 =>
      have ht : t ≤ e := hts t (List.mem_cons_self t ts2)
      have hrest : ∀ u ∈ ts2, u ≤ e := fun u hu => hts u (List.mem_cons_of_mem t hu)
      have hk2 : k + 1 ≤ limit := by push_cast at hk; omega
      have hw : wrap64 (k + 1) = k + 1 := wrap64_of_range (k + 1) (by omega) (by omega)
      have h := (Allow_mock_counts l ip apiKey key limit window block hres m k e t hb hc ht
        hlim).1 (by rw [hw]; exact hk2)
      rw [hw] at h
      have hlen3 : ts2.length = d + 1 := by simpa using hlen2
      have ih2 := ih (k + 1) { m with counters := mapSet m.counters key ⟨k + 1, e⟩ } ts2
        hb (by simp [mapSet]) (by omega) (by push_cast at hk; omega) hrest hlen3
      simp only [allowAt, h, ih2, List.range_succ_eq_map, List.map_cons, List.map_map,
        List.cons_append]
      congr 1
      · simp
      · congr 1
        apply List.map_congr_left
        intro i _
        simp only [Function.comp_apply, Nat.succ_eq_add_one, Nat.cast_add, Nat.cast_one]
        congr 2
        ring

/-- The counting run from an empty counter, for a limit that is an `int`. -/
theorem allowAt_fresh (l : Limiter) (ip apiKey key : String) (limit : Int) (n : Nat)
    (window block : Duration) (m : mockStorage) (t0 : Time) (ts : List Time)
    (hres : resolve l ip apiKey = (key, limit, window, block))
    (hn : (n : Int) = limit) (hlim : 0 < limit) (hmax : limit ≤ 9223372036854775807)
    (hc : m.counters key = none) (hb : m.blocked key = none)
    (hlen : ts.length = n)
    (hwin : ∀ t ∈ ts, t ≤ t0 + window) :
    (allowAt l ip apiKey (t0 :: ts) m).1
      = (List.range n).map (fun (i : Nat) =>
          (({ Allowed := true, Count := (i : Int) + 1, Limit := limit, Blocked := false }
            : AllowResult), (none : Option GoError)))
        ++ [if limit < wrap64 (limit + 1) then
              ({ Allowed := false, Count := wrap64 (limit + 1), Limit := limit,
                 Blocked := true, BlockRemain := block }, none)
            else
              ({ Allowed := true, Count := wrap64 (limit + 1), Limit := limit,
                 Blocked := false }, none)] := by
  obtain ⟨d, hd⟩ : ∃ d, n = d + 1 := ⟨n - 1, by omega⟩
  have hl : ¬ limit ≤ 0 := not_le.mpr hlim
  have h1 : ¬ (1 : Int) > limit := by omega
  have hfirst : Allow (mockStore t0) l ip apiKey m =
      (({ Allowed := true, Count := 1, Limit := limit, Blocked := false }, none),
        { m with counters := mapSet m.counters key ⟨1, t0 + window⟩ }) := by
    rw [Allow_eq_evaluate _ l ip apiKey m key _ window block hres]
    simp [evaluate, mockStore, mockStorage.IsBlocked, mockStorage.Increment, hb, hc, hl, h1]
  have hrest := allowAt_counting l ip apiKey key limit window block hres hlim hmax
    (t0 + window) d 1 { m with counters := mapSet m.counters key ⟨1, t0 + window⟩ } ts
    hb (by simp [mapSet]) (by omega) (by omega) hwin (by omega)
  subst hd
  simp only [allowAt, hfirst, hrest, List.range_succ_eq_map, List.map_cons, List.map_map,
    List.cons_append]
  congr 1
  simp only [List.append_cancel_right_eq]
  apply List.map_congr_left
  intro i _
  simp only [Function.comp_apply, Nat.succ_eq_add_one, Nat.cast_add, Nat.cast_one]
  congr 2
  ring

/-! ## Lemmas on the parser -/

theorem splitChars_chars (sep : Char) :
    ∀ (l : List Char), ∀ part ∈ splitChars sep l, ∀ c ∈ part, c ∈ l := by
  intro l
  induction l with
  | nil =>
    intro part hp c hc
    simp [splitChars] at hp
    subst hp
    simp at hc
  | cons a l ih =>
    intro part hp c hc
    by_cases ha : a = sep
    · simp only [splitChars, ha, if_true, List.mem_cons] at hp
      rcases hp with hp | hp
      · subst hp
        simp at hc
      · exact List.mem_cons_of_mem _ (ih part hp c hc)
    · simp only [splitChars, ha, if_false] at hp
      cases hsp : splitChars sep l with
      | nil =>
        rw [hsp] at hp
        simp at hp
        subst hp
        simp at hc
        simp [hc]
      | cons h t =>
        rw [hsp] at hp
        simp only [List.mem_cons] at hp
        rcases hp with hp | hp
        · subst hp
          simp only [List.mem_cons] at hc
          rcases hc with hc | hc
          · simp [hc]
          · exact List.mem_cons_of_mem _ (ih h (by simp [hsp]) c hc)
        · exact List.mem_cons_of_mem _ (ih part (by simp [hsp, hp]) c hc)

theorem dropWhile_eq_nil_iff_all (p : Char → Bool) (l : List Char) :
    l.dropWhile p = [] ↔ ∀ c ∈ l, p c = true := by
  induction l with
  | nil => simp
  | cons a l ih =>
    by_cases ha : p a = true
    · simp [List.dropWhile, ha, ih]
    · simp [List.dropWhile, ha]

theorem trimChars_eq_nil_iff (l : List Char) :
    trimChars l = [] ↔ ∀ c ∈ l, isSpace c = true := by
  unfold trimChars
  rw [List.reverse_eq_nil_iff, dropWhile_eq_nil_iff_all]
  constructor
  · intro h
    have hnil : l.dropWhile isSpace = [] := by
      cases hd : l.dropWhile isSpace with
      | nil => rfl
      | cons a r =>
        have ha : isSpace a = true := h a (by simp [hd])
        have hna := List.head_dropWhile_not isSpace l (by simp [hd])
        simp [hd] at hna
        simp [hna] at ha
    exact (dropWhile_eq_nil_iff_all isSpace l).mp hnil
  · intro h c hc
    have hnil := (dropWhile_eq_nil_iff_all isSpace l).mpr h
    simp [hnil] at hc

theorem TrimSpace_eq_empty_iff (s : String) :
    TrimSpace s = "" ↔ ∀ c ∈ s.data, isSpace c = true := by
  rw [← trimChars_eq_nil_iff]
  unfold TrimSpace
  constructor
  · intro h
    have := congrArg String.data h
    simpa using this
  · intro h
    rw [h]

/-- A part of a blank string is blank. -/
theorem TrimSpace_part_of_blank (raw part : String) (sep : Char)
    (hraw : TrimSpace raw = "") (hp : part ∈ Split raw sep) : TrimSpace part = "" := by
  rw [TrimSpace_eq_empty_iff] at hraw ⊢
  unfold Split at hp
  rw [List.mem_map] at hp
  obtain ⟨cs, hcs, rfl⟩ := hp
  intro c hc
  exact hraw c (splitChars_chars sep raw.data cs hcs c hc)

/-- What one iteration stores for a part with at least a token and a limit
field. -/
theorem parseEntry_fields (part token limitField : String) (more : List String)
    (hseg : Split (TrimSpace part) ':' = token :: limitField :: more) :
    parseEntry part = some (token,
      { Limit := (Atoi limitField).getD 0,
        Window := wrap64 (((more.get? 0).bind Atoi).getD 1 * Second),
        Block := wrap64 (((more.get? 1).bind Atoi).getD 300 * Second) }) := by
  have hne : TrimSpace part ≠ "" := by
    intro h
    rw [h] at hseg
    simp [Split, splitChars] at hseg
  cases more with
  | nil =>
    cases h1 : Atoi limitField <;> simp [parseEntry, hne, hseg, h1]
  | cons w more2 =>
    cases more2 with
    | nil =>
      cases h1 : Atoi limitField <;> cases h2 : Atoi w <;>
        simp [parseEntry, hne, hseg, h1, h2]
    | cons b more3 =>
      cases h1 : Atoi limitField <;> cases h2 : Atoi w <;> cases h3 : Atoi b <;>
        simp [parseEntry, hne, hseg, h1, h2, h3]

/-- Later parts that store nothing under `token` leave its rule as it was. -/
theorem foldl_keeps_token (token : String) :
    ∀ (after : List String) (out : String → Option TokenConfig),
      (∀ q ∈ after, ∀ c, parseEntry q ≠ some (token, c)) →
      (after.foldl
        (fun out p =>
          match parseEntry p with
          | none => out
          | some (token, cfg) => mapSet out token cfg) out) token = out token := by
  intro after
  induction after with
  | nil => intro out _; rfl
  | cons q after ih =>
    intro out h
    rw [List.foldl_cons]
    rw [ih _ (fun r hr c => h r (List.mem_cons_of_mem q hr) c)]
    cases hq : parseEntry q with
    | none => rfl
    | some tc =>
      obtain ⟨t, c⟩ := tc
      have hne : t ≠ token := by
        intro ht
        exact h q (List.mem_cons_self q after) c (by rw [hq, ht])
      have hne2 : ¬ token = t := fun e => hne e.symm
      simp [mapSet, hne2]

/-- A number of seconds within about 292 years is not changed by the 64-bit
multiplication by `time.Second`. -/
theorem wrap64_seconds (v : Int) (hlo : -9223372036 ≤ v) (hhi : v ≤ 9223372036) :
    wrap64 (v * Second) = v * Second := by
  unfold wrap64 Second
  omega

/-! ## Lemmas on keys and on the middleware helpers -/

/-- Prepending the same text to two strings keeps them apart. -/
theorem append_left_cancel (p a b : String) : p ++ a = p ++ b ↔ a = b := by
  constructor
  · intro h
    have h2 := congrArg String.data h
    simp only [String.data_append, List.append_cancel_left_eq] at h2
    exact String.ext h2
  · intro h
    rw [h]

/-- A block key never equals a limiter key: it starts with `b`. -/
theorem blocked_key_ne_limiter_key (k a : String) :
    "blocked:" ++ k ≠ "ip:" ++ a ∧ "blocked:" ++ k ≠ "token:" ++ a := by
  constructor <;> intro h <;> have h2 := congrArg String.data h <;>
    simp [String.data_append] at h2

/-- The first piece of a split is what precedes the first separator. -/
theorem splitChars_head (sep : Char) (l : List Char) :
    (splitChars sep l).head? = some (l.takeWhile (fun c => c ≠ sep)) := by
  induction l with
  | nil => simp [splitChars]
  | cons a l ih =>
    by_cases ha : a = sep
    · simp [splitChars, ha]
    · cases hsp : splitChars sep l with
      | nil => rw [hsp] at ih; simp at ih
      | cons h t =>
        rw [hsp] at ih
        simp only [List.head?_cons, Option.some.injEq] at ih
        simp [splitChars, ha, hsp, List.takeWhile_cons, ih]

/-- The first element `strings.Split` returns. -/
theorem Split_first (s : String) (sep : Char) :
    (Split s sep).getD 0 "" = String.mk (s.data.takeWhile (fun c => c ≠ sep)) := by
  have h := splitChars_head sep s.data
  unfold Split
  cases hsp : splitChars sep s.data with
  | nil => rw [hsp] at h; simp at h
  | cons a t =>
    rw [hsp] at h
    simp only [List.head?_cons, Option.some.injEq] at h
    simp [h]

theorem lastIndexChars_none (sep : Char) (l : List Char) (h : sep ∉ l) :
    lastIndexChars sep l = none := by
  induction l with
  | nil => rfl
  | cons a l ih =>
    have h1 : ¬ a = sep := fun e => h (by simp [e])
    have h2 : sep ∉ l := fun e => h (List.mem_cons_of_mem a e)
    simp [lastIndexChars, ih h2, h1]

theorem lastIndexChars_last (sep : Char) (host port : List Char) (h : sep ∉ port) :
    lastIndexChars sep (host ++ sep :: port) = some host.length := by
  induction host with
  | nil => simp [lastIndexChars, lastIndexChars_none sep port h]
  | cons a host ih => simp [lastIndexChars, ih]

/-- What `strings.TrimSpace` does to the characters of a string: it removes a
run of white space at the front and one at the back, and what is left neither
starts nor ends with white space. -/
theorem trimChars_spec (l : List Char) :
    ∃ front back : List Char,
      l = front ++ trimChars l ++ back
      ∧ (∀ c ∈ front, isSpace c = true) ∧ (∀ c ∈ back, isSpace c = true)
      ∧ (∀ c, (trimChars l).head? = some c → isSpace c = false)
      ∧ (∀ c, (trimChars l).getLast? = some c → isSpace c = false) := by
  have hsplit : l.dropWhile isSpace
      = trimChars l ++ (((l.dropWhile isSpace).reverse).takeWhile isSpace).reverse := by
    unfold trimChars
    rw [← List.reverse_append, List.takeWhile_append_dropWhile, List.reverse_reverse]
  refine ⟨l.takeWhile isSpace, (((l.dropWhile isSpace).reverse).takeWhile isSpace).reverse,
    ?_, ?_, ?_, ?_, ?_⟩
  · rw [List.append_assoc, ← hsplit, List.takeWhile_append_dropWhile]
  · intro c hc
    exact List.mem_takeWhile_imp hc
  · intro c hc
    exact List.mem_takeWhile_imp (List.mem_reverse.mp hc)
  · intro c hc
    have hhead : (l.dropWhile isSpace).head? = some c := by
      rw [hsplit, List.head?_append, hc]
      rfl
    have h := List.head?_dropWhile_not isSpace l
    rw [hhead] at h
    exact h
  · intro c hc
    have hhead : (((l.dropWhile isSpace).reverse).dropWhile isSpace).head? = some c := by
      unfold trimChars at hc
      rw [List.getLast?_reverse] at hc
      exact hc
    have h := List.head?_dropWhile_not isSpace ((l.dropWhile isSpace).reverse)
    rw [hhead] at h
    exact h

/-! ## Lemmas on runs of the in-memory store -/

/-- A key that is not blocked at `t`: `IsBlocked` reports so and leaves a store
without block marker for the key and with the same counters. -/
theorem mock_IsBlocked_unblocked (t : Time) (key : String) (m : mockStorage)
    (hblk : ¬ ∃ eb, m.blocked key = some eb ∧ t ≤ eb) :
    ∃ m1, mockStorage.IsBlocked t key m = ((false, 0, none), m1)
      ∧ m1.blocked key = none ∧ m1.counters = m.counters := by
  cases hb : m.blocked key with
  | none => exact ⟨m, by simp [mockStorage.IsBlocked, hb], hb, rfl⟩
  | some eb =>
    have hgt : t > eb := by
      by_contra h
      exact hblk ⟨eb, hb, not_lt.mp h⟩
    exact ⟨{ m with blocked := mapDelete m.blocked key },
      by simp [mockStorage.IsBlocked, hb, hgt], by simp [mapDelete], rfl⟩

/-- One check at an instant `t` no earlier than `τ` keeps the counter covered
and yields a result within one of the limit, when the block lasts at least as
long as the window. -/
theorem Allow_mock_covered (l : Limiter) (ip apiKey key : String) (limit : Int)
    (window block : Duration) (hres : resolve l ip apiKey = (key, limit, window, block))
    (hlim : 0 < limit) (hwb : window ≤ block) (τ t : Time) (hτ : τ ≤ t) (m : mockStorage)
    (hinv : counterCovered key limit window τ m) :
    resultWithinOne limit block (Allow (mockStore t) l ip apiKey m).1
    ∧ counterCovered key limit window t (Allow (mockStore t) l ip apiKey m).2 := by
  have hl : ¬ limit ≤ 0 := not_le.mpr hlim
  have h1 : ¬ (1 : Int) > limit := by omega
  have hmin1 : minInt64 ≤ 1 := by decide
  -- the key is blocked at `t`
  by_cases hblk : ∃ eb, m.blocked key = some eb ∧ t ≤ eb
  · obtain ⟨eb, hb, hte⟩ := hblk
    rw [Allow_mock_blocked l ip apiKey key limit window block hres m eb t hb hte]
    refine ⟨⟨rfl, Or.inr (Or.inl ⟨rfl, rfl, rfl, rfl⟩)⟩, ?_⟩
    intro c hc
    obtain ⟨h1, h2⟩ := hinv c hc
    exact ⟨by linarith, h2⟩
  · -- the key is not blocked: a counter past the limit has expired
    have hpast : ∀ c, m.counters key = some c → t ≤ c.exp → c.count ≤ limit := by
      intro c hc hte
      by_contra hk
      obtain ⟨eb, hb, he⟩ := (hinv c hc).2.2 (by omega)
      exact hblk ⟨eb, hb, by linarith⟩
    obtain ⟨m1, hib, hb1, hc1⟩ := mock_IsBlocked_unblocked t key m hblk
    rw [Allow_eq_evaluate _ l ip apiKey m key limit window block hres]
    cases hc : m.counters key with
    | none =>
      simp [evaluate, mockStore, hib, mockStorage.Increment, hc1, hc, hl, h1,
        resultWithinOne, counterCovered, mapSet]
      exact ⟨by omega, hmin1⟩
    | some c =>
      by_cases hexp : t > c.exp
      · simp [evaluate, mockStore, hib, mockStorage.Increment, hc1, hc, hl, h1, hexp,
          resultWithinOne, counterCovered, mapSet]
        exact ⟨by omega, hmin1⟩
      · have hk := hpast c hc (by linarith)
        have hcov := (hinv c hc).1
        have hlow : -9223372036854775808 ≤ c.count := (hinv c hc).2.1
        have hr := wrap64_range (c.count + 1)
        have hr1 : minInt64 ≤ wrap64 (c.count + 1) := hr.1
        by_cases hover : limit < wrap64 (c.count + 1)
        · have hcnt : wrap64 (c.count + 1) = limit + 1 := by
            unfold wrap64 at hover ⊢
            omega
          simp [evaluate, mockStore, hib, mockStorage.Increment, mockStorage.SetBlocked, hc1, hc,
            hl, hexp, hover, resultWithinOne, counterCovered, mapSet, hb1]
          exact ⟨Or.inr hcnt, by linarith, hr1, by linarith⟩
        · simp [evaluate, mockStore, hib, mockStorage.Increment, hc1, hc, hl, hexp, hover,
            resultWithinOne, counterCovered, mapSet]
          exact ⟨not_lt.mp hover, by linarith, hr1⟩

/-- A run of checks at non-decreasing instants from a covered counter yields only
results within one of the limit. -/
theorem allowAt_covered (l : Limiter) (ip apiKey key : String) (limit : Int)
    (window block : Duration) (hres : resolve l ip apiKey = (key, limit, window, block))
    (hlim : 0 < limit) (hwb : window ≤ block) :
    ∀ (ts : List Time) (τ : Time) (m : mockStorage),
      List.Chain (fun a b => a ≤ b) τ ts → counterCovered key limit window τ m →
      ∀ r ∈ (allowAt l ip apiKey ts m).1, resultWithinOne limit block r := by
  intro ts
  induction ts with
  | nil => intro τ m _ _ r hr; simp [allowAt] at hr
  | cons t ts ih =>
    intro τ m hch hinv r hr
    rw [List.chain_cons] at hch
    have hstep := Allow_mock_covered l ip apiKey key limit window block hres hlim hwb τ t
      hch.1 m hinv
    simp only [allowAt, List.mem_cons] at hr
    rcases hr with hr | hr
    · rw [hr]
      exact hstep.1
    · exact ih t _ hch.2 hstep.2 r hr

/-! ## Claims -/

/-- C1 (as the code has it). For a limit `n` with `0 < n < 2^63 - 1`, starting
from an in-memory store with no counter and no block for the resolved key,
`n + 1` calls of which the later ones are made no later than one window after the
first return: Allowed=true, Blocked=false (with counts 1..n) for the first `n`,
then Allowed=false, Blocked=true for call `n + 1`. -/
theorem first_n_allowed_then_blocked (l : Limiter) (ip apiKey key : String) (n : Nat)
    (window block : Duration) (m : mockStorage) (t0 : Time) (ts : List Time)
    (hres : resolve l ip apiKey = (key, (n : Int), window, block))
    (hn : 0 < n) (hmax : n < 9223372036854775807)
    (hc : m.counters key = none) (hb : m.blocked key = none)
    (hlen : ts.length = n)
    (hwin : ∀ t ∈ ts, t ≤ t0 + window) :
    (allowAt l ip apiKey (t0 :: ts) m).1
      = (List.range n).map (fun (i : Nat) =>
          (({ Allowed := true, Count := (i : Int) + 1, Limit := (n : Int), Blocked := false }
            : AllowResult), (none : Option GoError)))
        ++ [({ Allowed := false, Count := (n : Int) + 1, Limit := (n : Int), Blocked := true,
               BlockRemain := block }, none)] := by
  have hmax2 : (n : Int) < 9223372036854775807 := by exact_mod_cast hmax
  have hw : wrap64 ((n : Int) + 1) = (n : Int) + 1 :=
    wrap64_of_range _ (by omega) (by omega)
  have h := allowAt_fresh l ip apiKey key (n : Int) n window block m t0 ts hres rfl
    (by exact_mod_cast hn) (by omega) hc hb hlen hwin
  rw [h, hw, if_pos (by omega)]

/-- Instance of C1: scenario A, limit 2 and window 10s, three calls within the window. -/
theorem first_n_allowed_then_blocked_witness :
    resolve ipLimiter "1.2.3.4" "" = ("ip:1.2.3.4", ((2 : Nat) : Int), 10 * Second, 5 * Second)
    ∧ (allowAt ipLimiter "1.2.3.4" "" [0, 1 * Second, 10 * Second] newMockStorage).1
      = [({ Allowed := true, Count := 1, Limit := 2, Blocked := false }, none),
         ({ Allowed := true, Count := 2, Limit := 2, Blocked := false }, none),
         ({ Allowed := false, Count := 3, Limit := 2, Blocked := true,
            BlockRemain := 5 * Second }, none)] :=
  ⟨by decide,
    first_n_allowed_then_blocked ipLimiter "1.2.3.4" "" "ip:1.2.3.4" 2 (10 * Second)
      (5 * Second) newMockStorage 0 [1 * Second, 10 * Second]
      (by decide) (by decide) (by decide) rfl rfl rfl (by decide)⟩

/-- C1 fails as stated.  With the limit 9223372036854775807, the largest `int`,
and every call made at instant 0 on an in-memory store that starts empty, the
first 9223372036854775807 calls are allowed with counts 1 to 9223372036854775807,
and the next call is allowed too: the `int64` counter wraps to
-9223372036854775808, which is not above the limit. -/
theorem call_after_largest_limit_is_allowed :
    resolve maxLimitLimiter "1.2.3.4" ""
      = ("ip:1.2.3.4", 9223372036854775807, 10 * Second, 5 * Second)
    ∧ (List.replicate 9223372036854775807 (0 : Time)).length = 9223372036854775807
    ∧ (allowAt maxLimitLimiter "1.2.3.4" ""
        (0 :: List.replicate 9223372036854775807 (0 : Time)) newMockStorage).1
      = (List.range 9223372036854775807).map (fun (i : Nat) =>
          (({ Allowed := true, Count := (i : Int) + 1, Limit := 9223372036854775807,
              Blocked := false } : AllowResult), (none : Option GoError)))
        ++ [({ Allowed := true, Count := -9223372036854775808, Limit := 9223372036854775807,
               Blocked := false }, none)] := by
  have hres : resolve maxLimitLimiter "1.2.3.4" ""
      = ("ip:1.2.3.4", 9223372036854775807, 10 * Second, 5 * Second) := by decide
  refine ⟨hres, List.length_replicate _ _, ?_⟩
  have hw : wrap64 ((9223372036854775807 : Int) + 1) = -9223372036854775808 := by decide
  have h := allowAt_fresh maxLimitLimiter "1.2.3.4" "" "ip:1.2.3.4" 9223372036854775807
    9223372036854775807 (10 * Second) (5 * Second) newMockStorage 0
    (List.replicate 9223372036854775807 (0 : Time)) hres (by norm_num) (by norm_num)
    (by norm_num) rfl rfl (List.length_replicate _ _)
    (fun t ht => by rw [List.eq_of_mem_replicate ht]; decide)
  rw [h, hw, if_neg (by decide)]

/-- C2. When the store reports the resolved key as blocked with remaining time
`r`, `Allow` returns Allowed=false, Blocked=true, BlockRemain=r, its only store
call is `IsBlocked` (no `Increment`, no `SetBlocked`), and the store is left as
`IsBlocked` left it.  On the in-memory store, any number of checks made up to
the block expiry leave the whole store, counters included, unchanged and are all
denied as blocked. -/
theorem blocked_check_reads_only (l : Limiter) (ip apiKey key : String) (limit : Int)
    (window block : Duration)
    (hres : resolve l ip apiKey = (key, limit, window, block)) :
    (∀ (σ : Type) (S : Storage σ) (s s1 : σ) (r : Duration),
        S.IsBlocked key s = ((true, r, none), s1) →
        Allow S l ip apiKey s
            = (({ Allowed := false, Blocked := true, BlockRemain := r }, none), s1)
          ∧ callsOf S l ip apiKey s = [Call.IsBlocked key])
    ∧ (∀ (m : mockStorage) (exp : Time) (ts : List Time),
        m.blocked key = some exp → (∀ t ∈ ts, t ≤ exp) →
        (allowAt l ip apiKey ts m).2 = m
          ∧ (allowAt l ip apiKey ts m).1
              = ts.map (fun t =>
                  ({ Allowed := false, Blocked := true, BlockRemain := timeSub exp t }, none))) := by
  constructor
  · intro σ S s s1 r hib
    constructor
    · rw [Allow_eq_evaluate S l ip apiKey s key limit window block hres]
      simp [evaluate, hib]
    · rw [callsOf_eq S l ip apiKey s key limit window block hres]
      simp [evaluate, traced, hib]
  · intro m exp ts hb
    induction ts with
    | nil => intro _; simp [allowAt]
    | cons t ts ih =>
      intro hts
      have ht : t ≤ exp := hts t (List.mem_cons_self t ts)
      have hrest : ∀ u ∈ ts, u ≤ exp := fun u hu => hts u (List.mem_cons_of_mem t hu)
      have hstep := Allow_mock_blocked l ip apiKey key limit window block hres m exp t hb ht
      have ih2 := ih hrest
      simp only [allowAt, hstep, List.map_cons]
      exact ⟨ih2.1, by rw [ih2.2]⟩

/-- Instance of C2: three checks of `ip:1.2.3.4`, blocked until instant 100. -/
theorem blocked_check_reads_only_witness :
    resolve ipLimiter "1.2.3.4" "" = ("ip:1.2.3.4", 2, 10 * Second, 5 * Second)
    ∧ blockedStore.blocked "ip:1.2.3.4" = some 100
    ∧ (allowAt ipLimiter "1.2.3.4" "" [60, 70, 100] blockedStore).2 = blockedStore
    ∧ (allowAt ipLimiter "1.2.3.4" "" [60, 70, 100] blockedStore).1
        = [60, 70, 100].map (fun t =>
            ({ Allowed := false, Blocked := true, BlockRemain := timeSub 100 t }, none)) :=
  ⟨by decide, by decide,
    (blocked_check_reads_only ipLimiter "1.2.3.4" "" "ip:1.2.3.4" 2 (10 * Second) (5 * Second)
      (by decide)).2 blockedStore 100 [60, 70, 100] (by decide) (by decide)⟩

/-- C3. Whatever the mode and the ip, a non-empty token found in the token-rule
table makes `Allow` run against the key `token:<token>` with the limit, window
and block duration of that rule: every store call is made on that key, which is
not the ip key, and the outcome does not depend on the default limit. -/
theorem token_rule_overrides_ip {σ : Type} (S : Storage σ) (l : Limiter) (ip apiKey : String)
    (c : TokenConfig) (s : σ)
    (hne : apiKey ≠ "") (hc : l.tokenConfigs apiKey = some c) :
    resolve l ip apiKey = ("token:" ++ apiKey, c.Limit, c.Window, c.Block)
    ∧ Allow S l ip apiKey s = evaluate S ("token:" ++ apiKey) c.Limit c.Window c.Block s
    ∧ (∀ call ∈ callsOf S l ip apiKey s,
        call = Call.IsBlocked ("token:" ++ apiKey)
        ∨ call = Call.Increment ("token:" ++ apiKey) c.Window
        ∨ call = Call.SetBlocked ("token:" ++ apiKey) c.Block)
    ∧ (∀ call ∈ callsOf S l ip apiKey s, call.key ≠ "ip:" ++ ip) := by
  have hres : resolve l ip apiKey = ("token:" ++ apiKey, c.Limit, c.Window, c.Block) := by
    simp [resolve, hne, hc]
  have hcalls : ∀ call ∈ callsOf S l ip apiKey s,
      call = Call.IsBlocked ("token:" ++ apiKey)
      ∨ call = Call.Increment ("token:" ++ apiKey) c.Window
      ∨ call = Call.SetBlocked ("token:" ++ apiKey) c.Block := by
    intro call hmem
    rw [callsOf_eq S l ip apiKey s _ _ _ _ hres] at hmem
    rcases evaluate_calls_shape S ("token:" ++ apiKey) c.Limit c.Window c.Block s
      with h | h | h | h <;> rw [h] at hmem <;> simp at hmem <;> tauto
  refine ⟨hres, Allow_eq_evaluate S l ip apiKey s _ _ _ _ hres, hcalls, ?_⟩
  intro call hmem
  rcases hcalls call hmem with h | h | h <;> rw [h] <;>
    exact token_key_ne_ip_key apiKey ip

/-- Instance of C3: the configuration of `TestAllowByToken_OverridesIP`. -/
theorem token_rule_overrides_ip_witness :
    "tok1" ≠ "" ∧ bothLimiter.tokenConfigs "tok1" = some ⟨3, 10 * Second, 5 * Second⟩
    ∧ resolve bothLimiter "9.9.9.9" "tok1" = ("token:tok1", 3, 10 * Second, 5 * Second)
    ∧ callsOf (mockStore 0) bothLimiter "9.9.9.9" "tok1" newMockStorage
        = [Call.IsBlocked "token:tok1", Call.Increment "token:tok1" (10 * Second)] :=
  ⟨by decide, by decide,
    (token_rule_overrides_ip (mockStore 0) bothLimiter "9.9.9.9" "tok1"
      ⟨3, 10 * Second, 5 * Second⟩ newMockStorage (by decide) (by decide)).1,
    by decide⟩

/-- C4. In mode `token`, with a token that is empty or absent from the
token-rule table and whatever the default limit, `Allow` on a store that
reports `ip:<ip>` as not blocked calls `IsBlocked` then
`SetBlocked(ip:<ip>, defaultBlock)` and returns Allowed=false, Blocked=true,
Count=0; on the in-memory store with no block entry for `ip:<ip>` the call made
at instant `now` leaves the key blocked until `now + defaultBlock` and the
counters untouched. -/
theorem token_mode_without_token_denied (l : Limiter) (ip apiKey : String)
    (hmode : l.mode = "token")
    (htok : apiKey = "" ∨ l.tokenConfigs apiKey = none) :
    (∀ (σ : Type) (S : Storage σ) (s s1 : σ) (r : Duration),
        S.IsBlocked ("ip:" ++ ip) s = ((false, r, none), s1) →
        (Allow S l ip apiKey s).1
            = ({ Allowed := false, Count := 0, Limit := 0, Blocked := true,
                 BlockRemain := l.defaultBlock }, none)
          ∧ callsOf S l ip apiKey s
              = [Call.IsBlocked ("ip:" ++ ip), Call.SetBlocked ("ip:" ++ ip) l.defaultBlock])
    ∧ (∀ (m : mockStorage) (now : Time), m.blocked ("ip:" ++ ip) = none →
        (Allow (mockStore now) l ip apiKey m).1
            = ({ Allowed := false, Count := 0, Limit := 0, Blocked := true,
                 BlockRemain := l.defaultBlock }, none)
          ∧ (Allow (mockStore now) l ip apiKey m).2.blocked ("ip:" ++ ip)
              = some (now + l.defaultBlock)
          ∧ (Allow (mockStore now) l ip apiKey m).2.counters = m.counters) := by
  have hres : resolve l ip apiKey = ("ip:" ++ ip, 0, l.defaultWindow, l.defaultBlock) := by
    rcases htok with h | h
    · simp [resolve, h, hmode]
    · by_cases he : apiKey = ""
      · simp [resolve, he, hmode]
      · simp [resolve, he, h, hmode]
  constructor
  · intro σ S s s1 r hib
    constructor
    · rw [Allow_eq_evaluate S l ip apiKey s _ _ _ _ hres]
      simp [evaluate, hib]
    · rw [callsOf_eq S l ip apiKey s _ _ _ _ hres]
      simp [evaluate, traced, hib]
  · intro m now hb
    rw [Allow_eq_evaluate _ l ip apiKey m _ _ _ _ hres]
    simp [evaluate, mockStore, mockStorage.IsBlocked, mockStorage.SetBlocked, hb, mapSet]

/-- Instance of C4: the configuration of `TestTokenMode_WithoutToken_Denied`. -/
theorem token_mode_without_token_denied_witness :
    tokenOnlyLimiter.mode = "token"
    ∧ (Allow (mockStore 7) tokenOnlyLimiter "8.8.8.8" "" newMockStorage).1
        = ({ Allowed := false, Count := 0, Limit := 0, Blocked := true,
             BlockRemain := 5 * Second }, none)
    ∧ (Allow (mockStore 7) tokenOnlyLimiter "8.8.8.8" "" newMockStorage).2.blocked "ip:8.8.8.8"
        = some (7 + 5 * Second) :=
  ⟨by decide,
    ((token_mode_without_token_denied tokenOnlyLimiter "8.8.8.8" "" (by decide)
      (Or.inl rfl)).2 newMockStorage 7 (by decide)).1,
    ((token_mode_without_token_denied tokenOnlyLimiter "8.8.8.8" "" (by decide)
      (Or.inl rfl)).2 newMockStorage 7 (by decide)).2.1⟩

/-- C5. When the resolved limit is at most 0 and the store reports the key as
not blocked, `Allow` calls `IsBlocked` and then `SetBlocked(key, block)` exactly
once, never `Increment`, and returns Allowed=false, Blocked=true, Count=0,
BlockRemain=block with a nil error. -/
theorem zero_limit_denies_and_blocks {σ : Type} (S : Storage σ) (l : Limiter)
    (ip apiKey : String) (s s1 : σ) (key : String) (limit : Int)
    (window block rem : Duration)
    (hres : resolve l ip apiKey = (key, limit, window, block))
    (hlim : limit ≤ 0)
    (hib : S.IsBlocked key s = ((false, rem, none), s1)) :
    Allow S l ip apiKey s =
        (({ Allowed := false, Count := 0, Limit := limit, Blocked := true,
            BlockRemain := block }, none), (S.SetBlocked key block s1).2)
      ∧ callsOf S l ip apiKey s = [Call.IsBlocked key, Call.SetBlocked key block] := by
  constructor
  · rw [Allow_eq_evaluate S l ip apiKey s key limit window block hres]
    simp [evaluate, hib, hlim]
  · rw [callsOf_eq S l ip apiKey s key limit window block hres]
    simp [evaluate, traced, hib, hlim]

/-- Instance of C5: token-only mode without token, on a store whose `SetBlocked` fails. -/
theorem zero_limit_denies_and_blocks_witness :
    resolve tokenOnlyLimiter "8.8.8.8" "" = ("ip:8.8.8.8", 0, 1 * Second, 5 * Second)
    ∧ (0 : Int) ≤ 0
    ∧ (constStore (false, 0, none) (1, none) (some "down")).IsBlocked "ip:8.8.8.8" ()
        = ((false, 0, none), ())
    ∧ callsOf (constStore (false, 0, none) (1, none) (some "down")) tokenOnlyLimiter
        "8.8.8.8" "" () = [Call.IsBlocked "ip:8.8.8.8", Call.SetBlocked "ip:8.8.8.8" (5 * Second)] :=
  ⟨by decide, by decide, rfl,
    (zero_limit_denies_and_blocks (constStore (false, 0, none) (1, none) (some "down"))
      tokenOnlyLimiter "8.8.8.8" "" () () "ip:8.8.8.8" 0 (1 * Second) (5 * Second) 0
      (by decide) (by decide) rfl).2⟩

/-- C6. With a resolved limit above 0 and a key reported as not blocked, let
`c` be the count `Increment` returns.  If `c > limit`, `Allow` calls
`SetBlocked(key, block)` and returns Allowed=false, Blocked=true, Count=c,
Limit=limit, BlockRemain=block; if `c ≤ limit`, it makes no `SetBlocked` call
and returns Allowed=true, Blocked=false, Count=c, Limit=limit. -/
theorem count_against_limit {σ : Type} (S : Storage σ) (l : Limiter)
    (ip apiKey : String) (s s1 s2 : σ) (key : String) (limit c : Int)
    (window block rem : Duration)
    (hres : resolve l ip apiKey = (key, limit, window, block))
    (hlim : 0 < limit)
    (hib : S.IsBlocked key s = ((false, rem, none), s1))
    (hinc : S.Increment key window s1 = ((c, none), s2)) :
    (c > limit →
      Allow S l ip apiKey s =
          (({ Allowed := false, Count := c, Limit := limit, Blocked := true,
              BlockRemain := block }, none), (S.SetBlocked key block s2).2)
        ∧ callsOf S l ip apiKey s
            = [Call.IsBlocked key, Call.Increment key window, Call.SetBlocked key block])
    ∧ (c ≤ limit →
      Allow S l ip apiKey s =
          (({ Allowed := true, Count := c, Limit := limit, Blocked := false,
              BlockRemain := 0 }, none), s2)
        ∧ callsOf S l ip apiKey s = [Call.IsBlocked key, Call.Increment key window]) := by
  have hl : ¬ limit ≤ 0 := not_le.mpr hlim
  constructor
  · intro hc
    constructor
    · rw [Allow_eq_evaluate S l ip apiKey s key limit window block hres]
      simp [evaluate, hib, hl, hinc, hc]
    · rw [callsOf_eq S l ip apiKey s key limit window block hres]
      simp [evaluate, traced, hib, hl, hinc, hc]
  · intro hc
    have hc2 : ¬ c > limit := not_lt.mpr hc
    constructor
    · rw [Allow_eq_evaluate S l ip apiKey s key limit window block hres]
      simp [evaluate, hib, hl, hinc, hc2]
    · rw [callsOf_eq S l ip apiKey s key limit window block hres]
      simp [evaluate, traced, hib, hl, hinc, hc2]

/-- Instance of C6: limit 2 and a store whose `Increment` returns 3. -/
theorem count_against_limit_witness :
    resolve ipLimiter "1.2.3.4" "" = ("ip:1.2.3.4", 2, 10 * Second, 5 * Second)
    ∧ (0 : Int) < 2
    ∧ (constStore (false, 0, none) (3, none) none).IsBlocked "ip:1.2.3.4" ()
        = ((false, 0, none), ())
    ∧ (constStore (false, 0, none) (3, none) none).Increment "ip:1.2.3.4" (10 * Second) ()
        = ((3, none), ())
    ∧ Allow (constStore (false, 0, none) (3, none) none) ipLimiter "1.2.3.4" "" ()
        = (({ Allowed := false, Count := 3, Limit := 2, Blocked := true,
              BlockRemain := 5 * Second }, none), ()) :=
  ⟨by decide, by decide, rfl, rfl,
    ((count_against_limit (constStore (false, 0, none) (3, none) none) ipLimiter
      "1.2.3.4" "" () () () "ip:1.2.3.4" 2 3 (10 * Second) (5 * Second) 0
      (by decide) (by decide) rfl rfl).1 (by decide)).1⟩

/-- C7. If `IsBlocked` fails with error `e`, `Allow` returns `e` with the empty
result and its only store call is that `IsBlocked`.  If `IsBlocked` reports not
blocked, the limit is above 0 and `Increment` fails with `e`, `Allow` returns `e`
with the empty result after exactly `IsBlocked` and `Increment`, without
`SetBlocked`.  On every path no store call is made twice. -/
theorem store_errors_are_returned {σ : Type} (S : Storage σ) (l : Limiter)
    (ip apiKey : String) (s : σ) (key : String) (limit : Int) (window block : Duration)
    (hres : resolve l ip apiKey = (key, limit, window, block)) :
    (∀ (b : Bool) (r : Duration) (e : GoError) (s1 : σ),
        S.IsBlocked key s = ((b, r, some e), s1) →
        Allow S l ip apiKey s = (({}, some e), s1)
          ∧ callsOf S l ip apiKey s = [Call.IsBlocked key])
    ∧ (∀ (r : Duration) (c : Int) (e : GoError) (s1 s2 : σ),
        S.IsBlocked key s = ((false, r, none), s1) → 0 < limit →
        S.Increment key window s1 = ((c, some e), s2) →
        Allow S l ip apiKey s = (({}, some e), s2)
          ∧ callsOf S l ip apiKey s = [Call.IsBlocked key, Call.Increment key window])
    ∧ (callsOf S l ip apiKey s).Nodup := by
  refine ⟨?_, ?_, ?_⟩
  · intro b r e s1 hib
    constructor
    · rw [Allow_eq_evaluate S l ip apiKey s key limit window block hres]
      simp [evaluate, hib]
    · rw [callsOf_eq S l ip apiKey s key limit window block hres]
      simp [evaluate, traced, hib]
  · intro r c e s1 s2 hib hlim hinc
    have hl : ¬ limit ≤ 0 := not_le.mpr hlim
    constructor
    · rw [Allow_eq_evaluate S l ip apiKey s key limit window block hres]
      simp [evaluate, hib, hl, hinc]
    · rw [callsOf_eq S l ip apiKey s key limit window block hres]
      simp [evaluate, traced, hib, hl, hinc]
  · rw [callsOf_eq S l ip apiKey s key limit window block hres]
    rcases evaluate_calls_shape S key limit window block s with h | h | h | h <;>
      rw [h] <;> simp

/-- Instance of C7: a store whose `IsBlocked` fails, and one whose `Increment` fails. -/
theorem store_errors_are_returned_witness :
    resolve ipLimiter "1.2.3.4" "" = ("ip:1.2.3.4", 2, 10 * Second, 5 * Second)
    ∧ Allow (constStore (true, 9, some "redis: connection refused") (1, none) none)
        ipLimiter "1.2.3.4" "" () = (({}, some "redis: connection refused"), ())
    ∧ Allow (constStore (false, 0, none) (0, some "redis: timeout") none)
        ipLimiter "1.2.3.4" "" () = (({}, some "redis: timeout"), ()) :=
  ⟨by decide,
    ((store_errors_are_returned
      (constStore (true, 9, some "redis: connection refused") (1, none) none)
      ipLimiter "1.2.3.4" "" () "ip:1.2.3.4" 2 (10 * Second) (5 * Second) (by decide)).1
      true 9 "redis: connection refused" () rfl).1,
    ((store_errors_are_returned
      (constStore (false, 0, none) (0, some "redis: timeout") none)
      ipLimiter "1.2.3.4" "" () "ip:1.2.3.4" 2 (10 * Second) (5 * Second) (by decide)).2.1
      0 0 "redis: timeout" () () rfl (by decide) rfl).1⟩

/-- C8. The result and error `Allow` returns never depend on what `SetBlocked`
does: replacing the `SetBlocked` method of the store by any other (failing or
not) leaves them the same.  In particular on both deny paths (limit at most 0;
count above the limit) the outcome is the deny result with a nil error even when
`SetBlocked` fails. -/
theorem deny_ignores_set_blocked_failure {σ : Type} (S : Storage σ) (l : Limiter)
    (ip apiKey : String) (s s1 : σ) (key : String) (limit : Int)
    (window block rem : Duration)
    (sb : String → Duration → σ → Option GoError × σ)
    (hres : resolve l ip apiKey = (key, limit, window, block))
    (hib : S.IsBlocked key s = ((false, rem, none), s1)) :
    (Allow (withSetBlocked S sb) l ip apiKey s).1 = (Allow S l ip apiKey s).1
    ∧ (limit ≤ 0 →
        (Allow (withSetBlocked S sb) l ip apiKey s).1
          = ({ Allowed := false, Count := 0, Limit := limit, Blocked := true,
               BlockRemain := block }, none))
    ∧ (∀ (c : Int) (s2 : σ), 0 < limit → S.Increment key window s1 = ((c, none), s2) →
        c > limit →
        (Allow (withSetBlocked S sb) l ip apiKey s).1
          = ({ Allowed := false, Count := c, Limit := limit, Blocked := true,
               BlockRemain := block }, none)) := by
  rw [Allow_eq_evaluate _ l ip apiKey s key limit window block hres,
    Allow_eq_evaluate _ l ip apiKey s key limit window block hres]
  refine ⟨?_, ?_, ?_⟩
  · by_cases hl : limit ≤ 0
    · simp [evaluate, withSetBlocked, hib, hl]
    · rcases hinc : S.Increment key window s1 with ⟨⟨c, e2⟩, s2⟩
      cases e2 with
      | some e2 => simp [evaluate, withSetBlocked, hib, hl, hinc]
      | none =>
        by_cases hc : c > limit
        · simp [evaluate, withSetBlocked, hib, hl, hinc, hc]
        · simp [evaluate, withSetBlocked, hib, hl, hinc, hc]
  · intro hl
    simp [evaluate, withSetBlocked, hib, hl]
  · intro c s2 hlim hinc hc
    have hl : ¬ limit ≤ 0 := not_le.mpr hlim
    simp [evaluate, withSetBlocked, hib, hl, hinc, hc]

/-- Instance of C8: both deny paths with a `SetBlocked` that fails.  The third
call of scenario A (count 3 above limit 2) on the in-memory store, and the first
call in token-only mode without token (limit 0): each returns its deny result
with a nil error, the same as with a `SetBlocked` that succeeds. -/
theorem deny_ignores_set_blocked_failure_witness :
    (mockStore 2).IsBlocked "ip:1.2.3.4" (allowAt ipLimiter "1.2.3.4" "" [0, 1] newMockStorage).2
      = ((false, 0, none), (allowAt ipLimiter "1.2.3.4" "" [0, 1] newMockStorage).2)
    ∧ ((mockStore 2).Increment "ip:1.2.3.4" (10 * Second)
        (allowAt ipLimiter "1.2.3.4" "" [0, 1] newMockStorage).2).1 = (3, none)
    ∧ (Allow (withSetBlocked (mockStore 2) (fun _ _ m => (some "redis: read only", m)))
        ipLimiter "1.2.3.4" "" (allowAt ipLimiter "1.2.3.4" "" [0, 1] newMockStorage).2).1
        = ({ Allowed := false, Count := 3, Limit := 2, Blocked := true,
             BlockRemain := 5 * Second }, none)
    ∧ (Allow (withSetBlocked (mockStore 2) (fun _ _ m => (some "redis: read only", m)))
        ipLimiter "1.2.3.4" "" (allowAt ipLimiter "1.2.3.4" "" [0, 1] newMockStorage).2).1
        = (Allow (mockStore 2) ipLimiter "1.2.3.4" ""
            (allowAt ipLimiter "1.2.3.4" "" [0, 1] newMockStorage).2).1
    ∧ (Allow (withSetBlocked (mockStore 0) (fun _ _ m => (some "redis: read only", m)))
        tokenOnlyLimiter "8.8.8.8" "" newMockStorage).1
        = ({ Allowed := false, Count := 0, Limit := 0, Blocked := true,
             BlockRemain := 5 * Second }, none) :=
  ⟨rfl, by decide,
    (deny_ignores_set_blocked_failure (mockStore 2) ipLimiter "1.2.3.4" ""
      (allowAt ipLimiter "1.2.3.4" "" [0, 1] newMockStorage).2
      (allowAt ipLimiter "1.2.3.4" "" [0, 1] newMockStorage).2
      "ip:1.2.3.4" 2 (10 * Second) (5 * Second) 0
      (fun _ _ m => (some "redis: read only", m)) (by decide) rfl).2.2 3
      ((mockStore 2).Increment "ip:1.2.3.4" (10 * Second)
        (allowAt ipLimiter "1.2.3.4" "" [0, 1] newMockStorage).2).2
      (by decide) rfl (by decide),
    (deny_ignores_set_blocked_failure (mockStore 2) ipLimiter "1.2.3.4" ""
      (allowAt ipLimiter "1.2.3.4" "" [0, 1] newMockStorage).2
      (allowAt ipLimiter "1.2.3.4" "" [0, 1] newMockStorage).2
      "ip:1.2.3.4" 2 (10 * Second) (5 * Second) 0
      (fun _ _ m => (some "redis: read only", m)) (by decide) rfl).1,
    (deny_ignores_set_blocked_failure (mockStore 0) tokenOnlyLimiter "8.8.8.8" ""
      newMockStorage newMockStorage "ip:8.8.8.8" 0 (1 * Second) (5 * Second) 0
      (fun _ _ m => (some "redis: read only", m)) (by decide) rfl).2.1 (by decide)⟩

/-- C9. In mode `ip` or `both`, with a token that is empty or absent from the
token-rule table, `Allow` runs against the key `ip:<ip>` with the default limit,
window and block duration, for every ip string, the empty one included. -/
theorem ip_fallback_uses_defaults {σ : Type} (S : Storage σ) (l : Limiter)
    (ip apiKey : String) (s : σ)
    (hmode : l.mode = "ip" ∨ l.mode = "both")
    (htok : apiKey = "" ∨ l.tokenConfigs apiKey = none) :
    resolve l ip apiKey = ("ip:" ++ ip, l.defaultLimit, l.defaultWindow, l.defaultBlock)
    ∧ Allow S l ip apiKey s
        = evaluate S ("ip:" ++ ip) l.defaultLimit l.defaultWindow l.defaultBlock s
    ∧ (∀ call ∈ callsOf S l ip apiKey s,
        call = Call.IsBlocked ("ip:" ++ ip)
        ∨ call = Call.Increment ("ip:" ++ ip) l.defaultWindow
        ∨ call = Call.SetBlocked ("ip:" ++ ip) l.defaultBlock) := by
  have hm : ¬ l.mode = "token" := by
    rcases hmode with h | h <;> rw [h] <;> decide
  have hres : resolve l ip apiKey
      = ("ip:" ++ ip, l.defaultLimit, l.defaultWindow, l.defaultBlock) := by
    rcases htok with h | h
    · simp [resolve, h, hm]
    · by_cases he : apiKey = ""
      · simp [resolve, he, hm]
      · simp [resolve, he, h, hm]
  refine ⟨hres, Allow_eq_evaluate S l ip apiKey s _ _ _ _ hres, ?_⟩
  intro call hmem
  rw [callsOf_eq S l ip apiKey s _ _ _ _ hres] at hmem
  rcases evaluate_calls_shape S ("ip:" ++ ip) l.defaultLimit l.defaultWindow l.defaultBlock s
    with h | h | h | h <;> rw [h] at hmem <;> simp at hmem <;> tauto

/-- Instance of C9: mode ip, empty ip string, unknown token. -/
theorem ip_fallback_uses_defaults_witness :
    (ipLimiter.mode = "ip" ∨ ipLimiter.mode = "both")
    ∧ resolve ipLimiter "" "nope" = ("ip:", 2, 10 * Second, 5 * Second) :=
  ⟨Or.inl (by decide),
    (ip_fallback_uses_defaults (mockStore 0) ipLimiter "" "nope" newMockStorage
      (Or.inl (by decide)) (Or.inr rfl)).1⟩

/-- C10 (as the code has it). An entry `token:limit[:window[:block]]` of the
TOKEN_LIMITS string whose token is not stored again by a later entry and whose
limit field parses as the integer `lim` is mapped to the rule with Limit `lim`,
Window `w` seconds and Block `b` seconds as 64-bit nanosecond counts, where `w`
is the parsed window field, or 1 when it is omitted or malformed, and `b` the
parsed block field, or 300 when it is omitted or malformed; the nanosecond
counts are exactly `w` and `b` seconds whenever these lie within
±9223372036. -/
theorem token_rule_of_last_entry (raw part token limitField : String)
    (before after more : List String) (lim w b : Int)
    (hsplit : Split raw ',' = before ++ part :: after)
    (hseg : Split (TrimSpace part) ':' = token :: limitField :: more)
    (hlim : Atoi limitField = some lim)
    (hw : w = ((more.get? 0).bind Atoi).getD 1)
    (hb : b = ((more.get? 1).bind Atoi).getD 300)
    (hlast : ∀ q ∈ after, ∀ c, parseEntry q ≠ some (token, c)) :
    parseTokenConfigs raw token
        = some { Limit := lim, Window := wrap64 (w * Second), Block := wrap64 (b * Second) }
    ∧ (-9223372036 ≤ w ∧ w ≤ 9223372036 → wrap64 (w * Second) = w * Second)
    ∧ (-9223372036 ≤ b ∧ b ≤ 9223372036 → wrap64 (b * Second) = b * Second) := by
  refine ⟨?_, fun h => wrap64_seconds w h.1 h.2, fun h => wrap64_seconds b h.1 h.2⟩
  have hentry := parseEntry_fields part token limitField more hseg
  rw [hlim, ← hw, ← hb] at hentry
  have hpart : TrimSpace part ≠ "" := by
    intro h
    rw [h] at hseg
    simp [Split, splitChars] at hseg
  have hraw : ¬ TrimSpace raw = "" := by
    intro h
    exact hpart (TrimSpace_part_of_blank raw part ',' h (by rw [hsplit]; simp))
  unfold parseTokenConfigs
  rw [if_neg hraw, hsplit, List.foldl_append, List.foldl_cons,
    foldl_keeps_token token after _ hlast, hentry]
  simp [mapSet]

/-- Instance of C10: the entry `tok1:3:10:5`. -/
theorem token_rule_of_last_entry_witness :
    Split "tok1:3:10:5" ',' = [] ++ "tok1:3:10:5" :: []
    ∧ Split (TrimSpace "tok1:3:10:5") ':' = "tok1" :: "3" :: ["10", "5"]
    ∧ Atoi "3" = some 3
    ∧ parseTokenConfigs "tok1:3:10:5" "tok1"
        = some { Limit := 3, Window := wrap64 (10 * Second), Block := wrap64 (5 * Second) }
    ∧ wrap64 (10 * Second) = 10 * Second :=
  ⟨by decide, by decide, by decide,
    (token_rule_of_last_entry "tok1:3:10:5" "tok1:3:10:5" "tok1" "3" [] [] ["10", "5"] 3 10 5
      (by decide) (by decide) (by decide) (by decide) (by decide)
      (by intro q hq; simp at hq)).1,
    (token_rule_of_last_entry "tok1:3:10:5" "tok1:3:10:5" "tok1" "3" [] [] ["10", "5"] 3 10 5
      (by decide) (by decide) (by decide) (by decide) (by decide)
      (by intro q hq; simp at hq)).2.1 (by decide)⟩

/-- C10 fails as stated.  In `a:1,a:2` the entry `a:1` has the form token:limit
with the integer limit 1, yet the rule stored for `a` has Limit 2, that of the
later entry.  In `t:1:10000000000` the window field parses as the integer
10000000000, yet the Window stored is -8446744073709551616 ns, not 10000000000
seconds. -/
theorem token_rule_claim_fails :
    (Split "a:1,a:2" ',' = ["a:1", "a:2"]
      ∧ Split (TrimSpace "a:1") ':' = ["a", "1"] ∧ Atoi "1" = some 1
      ∧ parseTokenConfigs "a:1,a:2" "a" = some ⟨2, 1 * Second, 300 * Second⟩
      ∧ ¬ (∃ cfg, parseTokenConfigs "a:1,a:2" "a" = some cfg ∧ cfg.Limit = 1))
    ∧ (Split (TrimSpace "t:1:10000000000") ':' = ["t", "1", "10000000000"]
      ∧ Atoi "10000000000" = some 10000000000
      ∧ parseTokenConfigs "t:1:10000000000" "t"
          = some ⟨1, -8446744073709551616, 300 * Second⟩
      ∧ ¬ (∃ cfg, parseTokenConfigs "t:1:10000000000" "t" = some cfg
            ∧ cfg.Window = 10000000000 * Second)) := by
  have h1 : parseTokenConfigs "a:1,a:2" "a" = some ⟨2, 1 * Second, 300 * Second⟩ := by decide
  have h2 : parseTokenConfigs "t:1:10000000000" "t"
      = some ⟨1, -8446744073709551616, 300 * Second⟩ := by decide
  refine ⟨⟨by decide, by decide, by decide, h1, ?_⟩, ⟨by decide, by decide, h2, ?_⟩⟩
  · rintro ⟨cfg, hcfg, hl⟩
    rw [h1] at hcfg
    cases hcfg
    simp at hl
  · rintro ⟨cfg, hcfg, hl⟩
    rw [h2] at hcfg
    cases hcfg
    simp [Second] at hl

/-- C11. The key `Allow` derives is `ip:<ip>` or `token:<apiKey>`, and these keys
never collide: an ip key differs from every token key, two ip keys are equal
only for equal addresses, and two token keys only for equal tokens. -/
theorem counter_keys_never_collide (l : Limiter) (ip apiKey a b t u : String) :
    ((resolve l ip apiKey).1 = "ip:" ++ ip ∨ (resolve l ip apiKey).1 = "token:" ++ apiKey)
    ∧ "ip:" ++ a ≠ "token:" ++ t
    ∧ ("ip:" ++ a = "ip:" ++ b ↔ a = b)
    ∧ ("token:" ++ t = "token:" ++ u ↔ t = u) := by
  refine ⟨?_, fun h => token_key_ne_ip_key t a h.symm, append_left_cancel "ip:" a b,
    append_left_cancel "token:" t u⟩
  unfold resolve
  by_cases he : apiKey = ""
  · by_cases hm : l.mode = "token" <;> simp [he, hm]
  · cases hc : l.tokenConfigs apiKey with
    | some c => simp [he, hc]
    | none => by_cases hm : l.mode = "token" <;> simp [he, hc, hm]

/-- C12. The middleware answers by the outcome of `Allow(clientIP(r), API_KEY)`.
On an error it replies through `http.Error` with status 500 and the next handler
is not run.  On Allowed=false it sets the JSON content type, writes status 429
and a JSON object whose `message` field is not empty, and the next handler is not
run.  On Allowed=true the reply is exactly what the next handler does, run once
on the untouched writer. -/
theorem handler_follows_allow {σ : Type} (S : Storage σ) (l : Limiter)
    (next : ResponseWriter → Request → ResponseWriter)
    (w : ResponseWriter) (r : Request) (s s1 : σ) (res : AllowResult)
    (err : Option GoError)
    (hallow : Allow S l (clientIP r) (r.Header "API_KEY") s = ((res, err), s1)) :
    (err ≠ none →
      Handler S l next w r s = (httpError w "internal error" 500, s1)
      ∧ (w.Code = none → (Handler S l next w r s).1.Code = some 500))
    ∧ (err = none → res.Allowed = false →
      Handler S l next w r s =
        ((((w.SetHeader "Content-Type" "application/json").WriteHeader 429).Write
          (BodyPart.json [("message", tooManyMessage)])), s1)
      ∧ tooManyMessage ≠ ""
      ∧ (w.Code = none →
          (Handler S l next w r s).1.Code = some 429
          ∧ (Handler S l next w r s).1.Body
              = w.Body ++ [BodyPart.json [("message", tooManyMessage)]]))
    ∧ (err = none → res.Allowed = true →
      Handler S l next w r s = (next w r, s1)) := by
  refine ⟨?_, ?_, ?_⟩
  · intro he
    cases err with
    | none => exact absurd rfl he
    | some e =>
      have h : Handler S l next w r s = (httpError w "internal error" 500, s1) := by
        simp [Handler, hallow, StatusInternalServerError]
      refine ⟨h, ?_⟩
      intro hw
      rw [h]
      simp [httpError, ResponseWriter.Write, ResponseWriter.WriteHeader,
        ResponseWriter.SetHeader, ResponseWriter.DelHeader, hw]
  · intro he ha
    subst he
    have h : Handler S l next w r s =
        ((((w.SetHeader "Content-Type" "application/json").WriteHeader 429).Write
          (BodyPart.json [("message", tooManyMessage)])), s1) := by
      simp [Handler, hallow, ha, StatusTooManyRequests]
    refine ⟨h, by decide, ?_⟩
    intro hw
    rw [h]
    simp [ResponseWriter.Write, ResponseWriter.WriteHeader, ResponseWriter.SetHeader, hw]
  · intro he ha
    subst he
    simp [Handler, hallow, ha]

/-- Instance of C12: the second request of `TestMiddleware_Returns429WhenExceeded`
style, on a store whose counter already passed the limit. -/
theorem handler_follows_allow_witness :
    Allow (constStore (false, 0, none) (3, none) none) ipLimiter
        (clientIP (requestOf "" "")) ((requestOf "" "").Header "API_KEY") ()
      = (({ Allowed := false, Count := 3, Limit := 2, Blocked := true,
            BlockRemain := 5 * Second }, none), ())
    ∧ (Handler (constStore (false, 0, none) (3, none) none) ipLimiter okHandler NewRecorder
        (requestOf "" "") ()).1.Code = some 429 :=
  ⟨by decide,
    (((handler_follows_allow (constStore (false, 0, none) (3, none) none) ipLimiter okHandler
      NewRecorder (requestOf "" "") () ()
      { Allowed := false, Count := 3, Limit := 2, Blocked := true, BlockRemain := 5 * Second }
      none (by decide)).2.1 rfl rfl).2.2 rfl).1⟩

/-- What `clientIP` returns.  With a non-empty `X-Forwarded-For` header: the text
that precedes its first comma, less a run of white space at its front and one at
its back, so that the result neither starts nor ends with white space.  With an
empty one: `host` for a `RemoteAddr` of the form `host:port` (a port holding no
colon), and `RemoteAddr` itself when it holds no colon. -/
theorem clientIP_forwarded_or_peer (r : Request) :
    (r.Header "X-Forwarded-For" ≠ "" →
      clientIP r
          = TrimSpace (String.mk ((r.Header "X-Forwarded-For").data.takeWhile (fun c => c ≠ ',')))
      ∧ ∃ front back : List Char,
          (r.Header "X-Forwarded-For").data.takeWhile (fun c => c ≠ ',')
            = front ++ (clientIP r).data ++ back
          ∧ (∀ c ∈ front, isSpace c = true) ∧ (∀ c ∈ back, isSpace c = true)
          ∧ (∀ c, (clientIP r).data.head? = some c → isSpace c = false)
          ∧ (∀ c, (clientIP r).data.getLast? = some c → isSpace c = false))
    ∧ (r.Header "X-Forwarded-For" = "" →
        ∀ host port : String, r.RemoteAddr = host ++ ":" ++ port → ':' ∉ port.data →
          clientIP r = host)
    ∧ (r.Header "X-Forwarded-For" = "" → ':' ∉ r.RemoteAddr.data →
        clientIP r = r.RemoteAddr) := by
  refine ⟨?_, ?_, ?_⟩
  · intro h
    have heq : clientIP r
        = TrimSpace (String.mk ((r.Header "X-Forwarded-For").data.takeWhile
            (fun c => c ≠ ','))) := by
      simp only [clientIP, h, ne_eq, not_false_eq_true, if_true]
      rw [Split_first]
    refine ⟨heq, ?_⟩
    rw [heq]
    exact trimChars_spec ((r.Header "X-Forwarded-For").data.takeWhile (fun c => c ≠ ','))
  · intro h host port hra hport
    have hdata : r.RemoteAddr.data = host.data ++ ':' :: port.data := by
      rw [hra]
      simp [String.data_append]
    have hidx := lastIndexChars_last ':' host.data port.data hport
    simp [clientIP, h, LastIndex, hdata, hidx]
  · intro h hra
    have hidx := lastIndexChars_none ':' r.RemoteAddr.data hra
    simp [clientIP, h, LastIndex, hidx]

/-- The forwarded chain ` 10.0.0.1 , 10.0.0.2` gives `10.0.0.1`, white space
removed on both sides, and the peer address `1.2.3.4:5678` gives `1.2.3.4`. -/
theorem clientIP_forwarded_or_peer_witness :
    (requestOf " 10.0.0.1 , 10.0.0.2" "").Header "X-Forwarded-For" ≠ ""
    ∧ clientIP (requestOf " 10.0.0.1 , 10.0.0.2" "") = "10.0.0.1"
    ∧ TrimSpace (String.mk (" 10.0.0.1 , 10.0.0.2".data.takeWhile (fun c => c ≠ ',')))
        = "10.0.0.1"
    ∧ clientIP (requestOf "" "") = "1.2.3.4" :=
  ⟨by decide,
    ((clientIP_forwarded_or_peer (requestOf " 10.0.0.1 , 10.0.0.2" "")).1 (by decide)).1.trans
      (by decide),
    by decide,
    (clientIP_forwarded_or_peer (requestOf "" "")).2.1 rfl "1.2.3.4" "5678" (by decide)
      (by decide)⟩

/-- C13 (the code at the failing input). With no `X-Forwarded-For` header and a
peer address that carries no port but holds colons, `clientIP` does not return
the address unchanged: it cuts it before its last colon, so the IPv6 address
`::1` becomes `:` and `2001:db8::1` becomes `2001:db8:`. -/
theorem clientIP_cuts_portless_address :
    (peerRequest "::1").Header "X-Forwarded-For" = ""
    ∧ clientIP (peerRequest "::1") = ":"
    ∧ clientIP (peerRequest "::1") ≠ (peerRequest "::1").RemoteAddr
    ∧ clientIP (peerRequest "2001:db8::1") = "2001:db8:"
    ∧ clientIP (peerRequest "2001:db8::1") ≠ (peerRequest "2001:db8::1").RemoteAddr := by
  refine ⟨?_, ?_, ?_, ?_, ?_⟩ <;> decide

/-- C14 (as the code has it). For a limit above 0 and a block duration at least
as long as the window, every result of a sequence of `Allow` calls for one key,
made at non-decreasing instants on an in-memory store that starts with no
counter for the key, has a nil error and is allowed with a count within the
limit, or denied by the block check (Count 0), or denied by the count path with
Count exactly limit + 1. -/
theorem deny_count_is_limit_plus_one (l : Limiter) (ip apiKey key : String) (limit : Int)
    (window block : Duration) (m : mockStorage) (ts : List Time)
    (hres : resolve l ip apiKey = (key, limit, window, block))
    (hlim : 0 < limit) (hwb : window ≤ block)
    (hc : m.counters key = none)
    (hts : List.Chain' (fun a b => a ≤ b) ts) :
    ∀ r ∈ (allowAt l ip apiKey ts m).1,
      r.2 = none ∧
        ((r.1.Allowed = true ∧ r.1.Blocked = false ∧ r.1.Count ≤ limit ∧ r.1.Limit = limit)
        ∨ (r.1.Allowed = false ∧ r.1.Blocked = true ∧ r.1.Count = 0 ∧ r.1.Limit = 0)
        ∨ (r.1.Allowed = false ∧ r.1.Blocked = true ∧ r.1.Count = limit + 1
            ∧ r.1.Limit = limit ∧ r.1.BlockRemain = block)) := by
  cases ts with
  | nil => intro r hr; simp [allowAt] at hr
  | cons t ts =>
    have hch : List.Chain (fun a b => a ≤ b) t (t :: ts) :=
      List.Chain.cons (le_refl t) hts
    have hinv : counterCovered key limit window t m := by
      intro c hcc
      rw [hc] at hcc
      cases hcc
    exact allowAt_covered l ip apiKey key limit window block hres hlim hwb (t :: ts) t m hch hinv

/-- Instance of C14: limit 1, window 5s, block 10s; the key is denied by the
count once, then by the block check, and counts again from 1 afterwards. -/
theorem deny_count_is_limit_plus_one_witness :
    resolve longBlockLimiter "1.2.3.4" "" = ("ip:1.2.3.4", 1, 5 * Second, 10 * Second)
    ∧ (allowAt longBlockLimiter "1.2.3.4" "" [0, 1, 6 * Second, 11 * Second] newMockStorage).1
        = [({ Allowed := true, Count := 1, Limit := 1, Blocked := false }, none),
           ({ Allowed := false, Count := 2, Limit := 1, Blocked := true,
              BlockRemain := 10 * Second }, none),
           ({ Allowed := false, Blocked := true, BlockRemain := 4000000001 }, none),
           ({ Allowed := true, Count := 1, Limit := 1, Blocked := false }, none)]
    ∧ ∀ r ∈ (allowAt longBlockLimiter "1.2.3.4" "" [0, 1, 6 * Second, 11 * Second]
          newMockStorage).1,
        r.2 = none ∧
          ((r.1.Allowed = true ∧ r.1.Blocked = false ∧ r.1.Count ≤ 1 ∧ r.1.Limit = 1)
          ∨ (r.1.Allowed = false ∧ r.1.Blocked = true ∧ r.1.Count = 0 ∧ r.1.Limit = 0)
          ∨ (r.1.Allowed = false ∧ r.1.Blocked = true ∧ r.1.Count = 1 + 1
              ∧ r.1.Limit = 1 ∧ r.1.BlockRemain = 10 * Second)) :=
  ⟨by decide, by decide,
    deny_count_is_limit_plus_one longBlockLimiter "1.2.3.4" "" "ip:1.2.3.4" 1 (5 * Second)
      (10 * Second) newMockStorage [0, 1, 6 * Second, 11 * Second]
      (by decide) (by decide) (by decide) rfl (by simp [Second])⟩

/-- C14 fails as stated.  With limit 2, window 10s and block 5s (the
configuration of `TestAllowByIP_ExceedAndBlock`), calls at 0ns, 1ns and 2ns reach
Count 3 and block the key until 5s + 2ns; the call at 6s finds the block expired
and the counter still alive, and is denied by the count path with Count 4, which
is limit + 2. -/
theorem deny_count_exceeds_limit_plus_one :
    (allowAt ipLimiter "1.2.3.4" "" [0, 1, 2, 6 * Second] newMockStorage).1
      = [({ Allowed := true, Count := 1, Limit := 2, Blocked := false }, none),
         ({ Allowed := true, Count := 2, Limit := 2, Blocked := false }, none),
         ({ Allowed := false, Count := 3, Limit := 2, Blocked := true,
            BlockRemain := 5 * Second }, none),
         ({ Allowed := false, Count := 4, Limit := 2, Blocked := true,
            BlockRemain := 5 * Second }, none)]
    ∧ callsOf (mockStore (6 * Second)) ipLimiter "1.2.3.4" ""
        (allowAt ipLimiter "1.2.3.4" "" [0, 1, 2] newMockStorage).2
      = [Call.IsBlocked "ip:1.2.3.4", Call.Increment "ip:1.2.3.4" (10 * Second),
         Call.SetBlocked "ip:1.2.3.4" (5 * Second)] := by
  constructor <;> decide

/-- C15 (as the code has it). Every call to `Allow` performs at least one and at
most three store operations, and it performs three (`IsBlocked`, `Increment`,
`SetBlocked`) exactly when it denies because the count passed a limit above 0;
on every other path it performs at most two. -/
theorem at_most_three_store_calls {σ : Type} (S : Storage σ) (l : Limiter)
    (ip apiKey : String) (s : σ) :
    1 ≤ (callsOf S l ip apiKey s).length
    ∧ (callsOf S l ip apiKey s).length ≤ 3
    ∧ ((callsOf S l ip apiKey s).length = 3 ↔
        ((Allow S l ip apiKey s).1.2 = none
          ∧ (Allow S l ip apiKey s).1.1.Allowed = false
          ∧ 0 < (Allow S l ip apiKey s).1.1.Limit
          ∧ (Allow S l ip apiKey s).1.1.Limit < (Allow S l ip apiKey s).1.1.Count)) := by
  rcases hres : resolve l ip apiKey with ⟨key, limit, window, block⟩
  rw [callsOf_eq S l ip apiKey s key limit window block hres,
    Allow_eq_evaluate S l ip apiKey s key limit window block hres]
  rcases hib : S.IsBlocked key s with ⟨⟨b, r, e⟩, s1⟩
  cases e with
  | some e => simp [evaluate, traced, hib]
  | none =>
    cases b with
    | true => simp [evaluate, traced, hib]
    | false =>
      by_cases hl : limit ≤ 0
      · simp [evaluate, traced, hib, hl]
      · rcases hinc : S.Increment key window s1 with ⟨⟨c, e2⟩, s2⟩
        cases e2 with
        | some e2 => simp [evaluate, traced, hib, hl, hinc]
        | none =>
          by_cases hc : c > limit
          · simp [evaluate, traced, hib, hl, hinc, hc]
            omega
          · simp [evaluate, traced, hib, hl, hinc, hc]

/-- C15 fails as stated.  With limit 2, the third call within the window makes
three store operations: `IsBlocked`, `Increment` and `SetBlocked`. -/
theorem third_call_makes_three_store_calls :
    callsOf (mockStore 2) ipLimiter "1.2.3.4" ""
        (allowAt ipLimiter "1.2.3.4" "" [0, 1] newMockStorage).2
      = [Call.IsBlocked "ip:1.2.3.4", Call.Increment "ip:1.2.3.4" (10 * Second),
         Call.SetBlocked "ip:1.2.3.4" (5 * Second)]
    ∧ ¬ (callsOf (mockStore 2) ipLimiter "1.2.3.4" ""
          (allowAt ipLimiter "1.2.3.4" "" [0, 1] newMockStorage).2).length ≤ 2 := by
  constructor <;> decide

/-- C16 (the code at the failing input). When the `TTL` command fails,
`RedisStorage.IsBlocked` returns not blocked with a nil error, whatever the error
is, whereas `Increment` and `SetBlocked` return the error of their command. -/
theorem redis_is_blocked_drops_error (ttl : Duration) (v : RedisValue) (e : GoError) :
    RedisStorage.IsBlocked (ttl, some e) = (false, 0, none)
    ∧ RedisStorage.Increment (v, some e) = (0, some e)
    ∧ RedisStorage.SetBlocked (some e) = some e := by
  refine ⟨rfl, rfl, rfl⟩

/-- C17. In `RedisStorage` the block marker of a key lives under
`blocked:<key>`, the counter under the key itself, and a block key never equals a
key the limiter derives (`ip:<a>` or `token:<t>`): the key written by
`SetBlocked` or read by `IsBlocked` for any key is never the key `Increment`
touches for a limiter key. -/
theorem block_keys_disjoint_from_counter_keys (k a : String) (d w : Duration)
    (l : Limiter) (ip apiKey : String) :
    (RedisStorage.SetBlockedCmd k d).key = "blocked:" ++ k
    ∧ (RedisStorage.IsBlockedCmd k).key = "blocked:" ++ k
    ∧ (RedisStorage.IncrementCmd k w).key = k
    ∧ "blocked:" ++ k ≠ "ip:" ++ a
    ∧ "blocked:" ++ k ≠ "token:" ++ a
    ∧ (RedisStorage.SetBlockedCmd k d).key
        ≠ (RedisStorage.IncrementCmd (resolve l ip apiKey).1 w).key
    ∧ (RedisStorage.IsBlockedCmd k).key
        ≠ (RedisStorage.IncrementCmd (resolve l ip apiKey).1 w).key := by
  have hne := blocked_key_ne_limiter_key k
  have hkey : (resolve l ip apiKey).1 = "ip:" ++ ip
      ∨ (resolve l ip apiKey).1 = "token:" ++ apiKey := by
    unfold resolve
    by_cases he : apiKey = ""
    · by_cases hm : l.mode = "token" <;> simp [he, hm]
    · cases hc : l.tokenConfigs apiKey with
      | some c => simp [he, hc]
      | none => by_cases hm : l.mode = "token" <;> simp [he, hc, hm]
  refine ⟨rfl, rfl, rfl, (hne a).1, (hne a).2, ?_, ?_⟩
  · show "blocked:" ++ k ≠ (resolve l ip apiKey).1
    rcases hkey with h | h <;> rw [h]
    · exact (hne ip).1
    · exact (hne apiKey).2
  · show "blocked:" ++ k ≠ (resolve l ip apiKey).1
    rcases hkey with h | h <;> rw [h]
    · exact (hne ip).1
    · exact (hne apiKey).2

/-- C18. On the in-memory store, `IsBlocked` calls for a key with a block marker
expiring at `exp`, made at instants up to `exp`, leave the store unchanged and
all report blocked=true with the time left until that same `exp` (`exp.Sub(t)`,
which is `exp - t` whenever that fits a `time.Duration`); for a key without block
marker every call reports blocked=false and the store is unchanged. -/
theorem is_blocked_twice_is_once (m : mockStorage) (key : String) (ts : List Time) :
    (∀ exp : Time, m.blocked key = some exp → (∀ t ∈ ts, t ≤ exp) →
      (isBlockedAt key ts m).2 = m
      ∧ (isBlockedAt key ts m).1 = ts.map (fun t => (true, timeSub exp t, none))
      ∧ (∀ t ∈ ts, exp - t ≤ maxDuration → timeSub exp t = exp - t))
    ∧ (m.blocked key = none →
      (isBlockedAt key ts m).2 = m
      ∧ (isBlockedAt key ts m).1 = ts.map (fun _ => (false, 0, none))) := by
  constructor
  · intro exp hb
    induction ts with
    | nil => intro _; simp [isBlockedAt]
    | cons t ts ih =>
      intro hts
      have ht : t ≤ exp := hts t (List.mem_cons_self t ts)
      have hnot : ¬ t > exp := not_lt.mpr ht
      have hstep : mockStorage.IsBlocked t key m = ((true, timeSub exp t, none), m) := by
        simp [mockStorage.IsBlocked, hb, hnot]
      have ih2 := ih (fun u hu => hts u (List.mem_cons_of_mem t hu))
      refine ⟨?_, ?_, ?_⟩
      · simp only [isBlockedAt, hstep]
        exact ih2.1
      · simp only [isBlockedAt, hstep, List.map_cons]
        rw [ih2.2.1]
      · intro u hu hfit
        have hu2 : u ≤ exp := hts u hu
        have h1 : ¬ exp - u > maxDuration := not_lt.mpr hfit
        have h2 : ¬ exp - u < minDuration := by
          have : minDuration ≤ 0 := by decide
          have h3 : (0 : Int) ≤ exp - u := sub_nonneg.mpr hu2
          exact not_lt.mpr (le_trans this h3)
        simp [timeSub, h1, h2]
  · intro hb
    induction ts with
    | nil => simp [isBlockedAt]
    | cons t ts ih =>
      have hstep : mockStorage.IsBlocked t key m = ((false, 0, none), m) := by
        simp [mockStorage.IsBlocked, hb]
      simp only [isBlockedAt, hstep, List.map_cons]
      exact ⟨ih.1, by rw [ih.2]⟩

/-- Instance of C18: three reads of the block on `ip:1.2.3.4`, set until instant
100. -/
theorem is_blocked_twice_is_once_witness :
    blockedStore.blocked "ip:1.2.3.4" = some 100
    ∧ (isBlockedAt "ip:1.2.3.4" [60, 70, 100] blockedStore).1
        = [(true, 40, none), (true, 30, none), (true, 0, none)]
    ∧ (isBlockedAt "ip:1.2.3.4" [60, 70, 100] blockedStore).2 = blockedStore :=
  ⟨by decide, by decide,
    ((is_blocked_twice_is_once blockedStore "ip:1.2.3.4" [60, 70, 100]).1 100 (by decide)
      (by decide)).1⟩

/-- C19. On the in-memory store, for a resolved limit above 0, a check of a key
that holds a counter and a block marker, made after both the counter expiry and
the block expiry, returns Allowed=true, Blocked=false, Count=1, removes the block
marker and starts a new counter at 1 for one window. -/
theorem fresh_again_after_expiry (l : Limiter) (ip apiKey key : String) (limit : Int)
    (window block : Duration) (m : mockStorage) (c : Counter) (eb t : Time)
    (hres : resolve l ip apiKey = (key, limit, window, block))
    (hlim : 0 < limit)
    (hc : m.counters key = some c) (hb : m.blocked key = some eb)
    (hwin : c.exp < t) (hblk : eb < t) :
    (Allow (mockStore t) l ip apiKey m).1
        = ({ Allowed := true, Count := 1, Limit := limit, Blocked := false }, none)
    ∧ (Allow (mockStore t) l ip apiKey m).2.blocked key = none
    ∧ (Allow (mockStore t) l ip apiKey m).2.counters key = some ⟨1, t + window⟩ := by
  have hl : ¬ limit ≤ 0 := not_le.mpr hlim
  have h1 : ¬ (1 : Int) > limit := by omega
  rw [Allow_eq_evaluate _ l ip apiKey m key limit window block hres]
  simp [evaluate, mockStore, mockStorage.IsBlocked, mockStorage.Increment, hb, hc, hl, h1,
    hwin, hblk, mapSet, mapDelete]

/-- Instance of C19: scenario A, the key blocked by its third call, checked again
at 11s, after the window (10s) and the block (5s + 2ns). -/
theorem fresh_again_after_expiry_witness :
    (allowAt ipLimiter "1.2.3.4" "" [0, 1, 2] newMockStorage).2.counters "ip:1.2.3.4"
      = some ⟨3, 10 * Second⟩
    ∧ (allowAt ipLimiter "1.2.3.4" "" [0, 1, 2] newMockStorage).2.blocked "ip:1.2.3.4"
      = some (2 + 5 * Second)
    ∧ (Allow (mockStore (11 * Second)) ipLimiter "1.2.3.4" ""
        (allowAt ipLimiter "1.2.3.4" "" [0, 1, 2] newMockStorage).2).1
      = ({ Allowed := true, Count := 1, Limit := 2, Blocked := false }, none) :=
  ⟨by decide, by decide,
    (fresh_again_after_expiry ipLimiter "1.2.3.4" "" "ip:1.2.3.4" 2 (10 * Second) (5 * Second)
      (allowAt ipLimiter "1.2.3.4" "" [0, 1, 2] newMockStorage).2 ⟨3, 10 * Second⟩
      (2 + 5 * Second) (11 * Second) (by decide) (by decide) (by decide) (by decide)
      (by decide) (by decide)).1⟩

/-- C20 (as the code has it). An entry with at least two colon-separated fields
whose limit field does not parse as an integer, and whose token is not stored
again by a later entry, is registered with Limit 0 (window and block as in C10),
whatever the token, the empty one included.  When the token is not empty, for a
limiter using the parsed table, a request carrying it on a key reported as not
blocked is denied and blocked with Count=0 after `IsBlocked` and `SetBlocked`
only, whatever the mode and the default limit. -/
theorem unparsable_limit_means_zero (raw part token limitField : String)
    (before after more : List String) (w b : Int) (l : Limiter) (ip : String)
    (hsplit : Split raw ',' = before ++ part :: after)
    (hseg : Split (TrimSpace part) ':' = token :: limitField :: more)
    (hlim : Atoi limitField = none)
    (hw : w = ((more.get? 0).bind Atoi).getD 1)
    (hb : b = ((more.get? 1).bind Atoi).getD 300)
    (hlast : ∀ q ∈ after, ∀ c, parseEntry q ≠ some (token, c)) :
    parseTokenConfigs raw token
        = some { Limit := 0, Window := wrap64 (w * Second), Block := wrap64 (b * Second) }
    ∧ (token ≠ "" → l.tokenConfigs = parseTokenConfigs raw →
        ∀ (σ : Type) (S : Storage σ) (s s1 : σ) (r : Duration),
        S.IsBlocked ("token:" ++ token) s = ((false, r, none), s1) →
        (Allow S l ip token s).1
            = ({ Allowed := false, Count := 0, Limit := 0, Blocked := true,
                 BlockRemain := wrap64 (b * Second) }, none)
          ∧ callsOf S l ip token s
              = [Call.IsBlocked ("token:" ++ token),
                 Call.SetBlocked ("token:" ++ token) (wrap64 (b * Second))]) := by
  have hentry := parseEntry_fields part token limitField more hseg
  rw [hlim, ← hw, ← hb] at hentry
  have hpart : TrimSpace part ≠ "" := by
    intro h
    rw [h] at hseg
    simp [Split, splitChars] at hseg
  have hraw : ¬ TrimSpace raw = "" := by
    intro h
    exact hpart (TrimSpace_part_of_blank raw part ',' h (by rw [hsplit]; simp))
  have hparse : parseTokenConfigs raw token
      = some { Limit := 0, Window := wrap64 (w * Second), Block := wrap64 (b * Second) } := by
    unfold parseTokenConfigs
    rw [if_neg hraw, hsplit, List.foldl_append, List.foldl_cons,
      foldl_keeps_token token after _ hlast, hentry]
    simp [mapSet]
  refine ⟨hparse, ?_⟩
  intro hne hcfg σ S s s1 r hib
  have hres : resolve l ip token
      = ("token:" ++ token, 0, wrap64 (w * Second), wrap64 (b * Second)) := by
    simp [resolve, hne, hcfg, hparse]
  constructor
  · rw [Allow_eq_evaluate S l ip token s _ _ _ _ hres]
    simp [evaluate, hib]
  · rw [callsOf_eq S l ip token s _ _ _ _ hres]
    simp [evaluate, traced, hib]

/-- Instance of C20: the entry `tok:abc:10:5` under the default environment, and
the entry `:abc`, which registers the empty token with Limit 0. -/
theorem unparsable_limit_means_zero_witness :
    Split (TrimSpace "tok:abc:10:5") ':' = "tok" :: "abc" :: ["10", "5"]
    ∧ Atoi "abc" = none
    ∧ parseTokenConfigs "tok:abc:10:5" "tok"
        = some { Limit := 0, Window := wrap64 (10 * Second), Block := wrap64 (5 * Second) }
    ∧ (Allow (mockStore 0) (NewLimiter (envTokenLimits "tok:abc:10:5")) "9.9.9.9" "tok"
        newMockStorage).1
        = ({ Allowed := false, Count := 0, Limit := 0, Blocked := true,
             BlockRemain := wrap64 (5 * Second) }, none)
    ∧ Split (TrimSpace ":abc") ':' = "" :: "abc" :: []
    ∧ parseTokenConfigs ":abc" ""
        = some { Limit := 0, Window := wrap64 (1 * Second), Block := wrap64 (300 * Second) } :=
  ⟨by decide, by decide,
    (unparsable_limit_means_zero "tok:abc:10:5" "tok:abc:10:5" "tok" "abc" [] [] ["10", "5"]
      10 5 (NewLimiter (envTokenLimits "tok:abc:10:5")) "9.9.9.9"
      (by decide) (by decide) (by decide) (by decide) (by decide)
      (by intro q hq; simp at hq)).1,
    ((unparsable_limit_means_zero "tok:abc:10:5" "tok:abc:10:5" "tok" "abc" [] [] ["10", "5"]
      10 5 (NewLimiter (envTokenLimits "tok:abc:10:5")) "9.9.9.9"
      (by decide) (by decide) (by decide) (by decide) (by decide)
      (by intro q hq; simp at hq)).2 (by decide) rfl mockStorage (mockStore 0) newMockStorage
      newMockStorage 0 rfl).1,
    by decide,
    (unparsable_limit_means_zero ":abc" ":abc" "" "abc" [] [] [] 1 300
      (NewLimiter (envTokenLimits ":abc")) "9.9.9.9"
      (by decide) (by decide) (by decide) (by decide) (by decide)
      (by intro q hq; simp at hq)).1⟩

/-- C20 fails as stated.  In `tok:abc,tok:5` the entry `tok:abc` has two fields
and a limit field that does not parse, yet `tok` is registered with Limit 5, the
later entry, and the first request carrying `tok` is allowed.  In `:abc` the
empty token is registered with Limit 0, yet a request with an empty API key is
evaluated on the ip key with the default limit 10 and allowed. -/
theorem unparsable_limit_claim_fails :
    (Split "tok:abc,tok:5" ',' = ["tok:abc", "tok:5"]
      ∧ Split (TrimSpace "tok:abc") ':' = ["tok", "abc"] ∧ Atoi "abc" = none
      ∧ parseTokenConfigs "tok:abc,tok:5" "tok" = some ⟨5, 1 * Second, 300 * Second⟩
      ∧ (Allow (mockStore 0) (NewLimiter (envTokenLimits "tok:abc,tok:5")) "9.9.9.9" "tok"
          newMockStorage).1
          = ({ Allowed := true, Count := 1, Limit := 5, Blocked := false }, none))
    ∧ (Split (TrimSpace ":abc") ':' = ["", "abc"]
      ∧ parseTokenConfigs ":abc" "" = some ⟨0, 1 * Second, 300 * Second⟩
      ∧ (Allow (mockStore 0) (NewLimiter (envTokenLimits ":abc")) "9.9.9.9" ""
          newMockStorage).1
          = ({ Allowed := true, Count := 1, Limit := 10, Blocked := false }, none)) := by
  refine ⟨⟨?_, ?_, ?_, ?_, ?_⟩, ⟨?_, ?_, ?_⟩⟩ <;> decide


/-- C21. Whatever the configuration, the identity and the behaviour of the
store, a result `Allow` returns with a nil error is either allowed or blocked and
never both (Allowed is the negation of Blocked), and an allowed result has a
Count within its Limit and a Limit above 0. -/
theorem allowed_iff_not_blocked {σ : Type} (S : Storage σ) (l : Limiter)
    (ip apiKey : String) (s : σ)
    (hok : (Allow S l ip apiKey s).1.2 = none) :
    (Allow S l ip apiKey s).1.1.Allowed = !(Allow S l ip apiKey s).1.1.Blocked
    ∧ ((Allow S l ip apiKey s).1.1.Allowed = true →
        (Allow S l ip apiKey s).1.1.Count ≤ (Allow S l ip apiKey s).1.1.Limit
        ∧ 0 < (Allow S l ip apiKey s).1.1.Limit) := by
  rcases hres : resolve l ip apiKey with ⟨key, limit, window, block⟩
  rw [Allow_eq_evaluate S l ip apiKey s key limit window block hres] at hok ⊢
  rcases hib : S.IsBlocked key s with ⟨⟨b, r, e⟩, s1⟩
  cases e with
  | some e => simp [evaluate, hib] at hok
  | none =>
    cases b with
    | true => simp [evaluate, hib]
    | false =>
      by_cases hl : limit ≤ 0
      · simp [evaluate, hib, hl]
      · rcases hinc : S.Increment key window s1 with ⟨⟨c, e2⟩, s2⟩
        cases e2 with
        | some e2 => simp [evaluate, hib, hl, hinc] at hok
        | none =>
          by_cases hc : c > limit
          · simp [evaluate, hib, hl, hinc, hc]
          · simp [evaluate, hib, hl, hinc, hc]
            omega

/-- Instance of C21: the second call of scenario A, allowed with Count 2 of
Limit 2. -/
theorem allowed_iff_not_blocked_witness :
    (Allow (mockStore 1) ipLimiter "1.2.3.4" ""
        (allowAt ipLimiter "1.2.3.4" "" [0] newMockStorage).2).1
      = ({ Allowed := true, Count := 2, Limit := 2, Blocked := false }, none)
    ∧ (Allow (mockStore 1) ipLimiter "1.2.3.4" ""
        (allowAt ipLimiter "1.2.3.4" "" [0] newMockStorage).2).1.1.Allowed
      = !(Allow (mockStore 1) ipLimiter "1.2.3.4" ""
        (allowAt ipLimiter "1.2.3.4" "" [0] newMockStorage).2).1.1.Blocked :=
  ⟨by decide,
    (allowed_iff_not_blocked (mockStore 1) ipLimiter "1.2.3.4" ""
      (allowAt ipLimiter "1.2.3.4" "" [0] newMockStorage).2 (by decide)).1⟩

end RateLimiter
